import Mathlib

/-!
Shallow embedding of `update_pypi_repo.py`, a script maintaining a
PEP-503-style static package repository.  File contents and paths are
`List Char`; artifact (wheel) contents are `List Nat` (bytes).  The file
system is an association list of paths to file data plus a list of
existing directories.  Python string primitives used by the source
(`str.strip`, `str.rstrip`, `str.split`, `str.replace`, `in`,
`urllib.parse.quote`, `os.path.join`, `os.path.basename`,
`f.readlines`, `"\n".join`) are modelled faithfully below, and
`hashlib.sha256` is implemented concretely (FIPS 180-4) over byte lists.
-/

namespace PyPi

/-- Python whitespace characters, as used by `str.strip` / `str.rstrip`. -/
def isPySpace (c : Char) : Bool :=
  c = ' ' ∨ c = '\t' ∨ c = '\n' ∨ c = '\r' ∨ c = '\x0b' ∨ c = '\x0c'

/-- `str.lstrip()`: drop leading whitespace. -/
def pyLstrip (s : List Char) : List Char := s.dropWhile isPySpace

/-- `str.rstrip()`: drop trailing whitespace. -/
def pyRstrip (s : List Char) : List Char := (s.reverse.dropWhile isPySpace).reverse

/-- `str.strip()`: drop whitespace at both ends. -/
def pyStrip (s : List Char) : List Char := pyLstrip (pyRstrip s)

/-- Auxiliary for `str.replace` with a nonempty pattern `p :: ps`:
    replace left-to-right, non-overlapping.  The `Nat` argument is
    structural fuel; every step consumes at least one character, so with
    fuel at least the length of the text the first branch never fires. -/
def pyReplaceFuel (p : Char) (ps repl : List Char) : Nat → List Char → List Char
  | 0, s => s
  | _, [] => []
  | fuel + 1, c :: rest =>
    if (p :: ps).isPrefixOf (c :: rest) then
      repl ++ pyReplaceFuel p ps repl fuel (rest.drop ps.length)
    else
      c :: pyReplaceFuel p ps repl fuel rest

/-- Python `s.replace(pat, repl)`: replace every non-overlapping occurrence,
    scanning left to right.  (For the empty pattern Python interleaves
    `repl` between all characters; the source never uses that case.) -/
def pyReplace (s pat repl : List Char) : List Char :=
  match pat with
  | [] => repl ++ s.flatMap (fun c => c :: repl)
  | p :: ps => pyReplaceFuel p ps repl s.length s

/-- Python `sep in s` / substring containment (`str.__contains__`). -/
def pyContains (s pat : List Char) : Bool := decide (pat <:+: s)

/-- Python `s.split(sep)` for a one-character separator: split at every
    occurrence, keeping empty segments. -/
def pySplitChar (sep : Char) : List Char → List (List Char)
  | [] => [[]]
  | c :: rest =>
    if c = sep then [] :: pySplitChar sep rest
    else
      match pySplitChar sep rest with
      | [] => [[c]]
      | g :: gs => (c :: g) :: gs

/-- `os.path.basename` (POSIX): the part after the last `/`. -/
def pyBasename (s : List Char) : List Char := (pySplitChar '/' s).getLastD []

/-- `os.path.join` for two components (POSIX semantics). -/
def pyPathJoin (a b : List Char) : List Char :=
  if b.head? = some '/' then b
  else if a = [] then b
  else if a.getLast? = some '/' then a ++ b
  else a ++ '/' :: b

/-- `f.readlines()` in text mode: split into lines, each keeping its
    trailing newline (inputs in this development are free of `\r`, so the
    universal-newline translation is the identity). -/
def splitLinesKeepEnds : List Char → List (List Char)
  | [] => []
  | c :: rest =>
    let r := splitLinesKeepEnds rest
    if c = '\n' then ['\n'] :: r
    else
      match r with
      | [] => [[c]]
      | l :: ls => (c :: l) :: ls

/-- Python `"\n".join(lines)`. -/
def joinLines (ls : List (List Char)) : List Char := List.intercalate ['\n'] ls

/-- Characters that `urllib.parse.quote` never escapes (`always_safe`). -/
def quoteAlwaysSafe : List Char :=
  ("ABCDEFGHIJKLMNOPQRSTUVWXYZabcdefghijklmnopqrstuvwxyz0123456789_.-~").toList

/-- Uppercase hex digit for a nibble, as used by percent-encoding. -/
def hexUpperDigit (n : Nat) : Char := (("0123456789ABCDEF").toList.getD n '0')

/-- UTF-8 encoding of one character, as `str.encode('utf-8')` does. -/
def utf8Bytes (c : Char) : List Nat :=
  let n := c.toNat
  if n < 128 then [n]
  else if n < 2048 then [192 + n / 64, 128 + n % 64]
  else if n < 65536 then [224 + n / 4096, 128 + n / 64 % 64, 128 + n % 64]
  else [240 + n / 262144, 128 + n / 4096 % 64, 128 + n / 64 % 64, 128 + n % 64]

/-- Percent-encode a single byte. -/
def percentByte (b : Nat) : List Char :=
  ['%', hexUpperDigit (b / 16), hexUpperDigit (b % 16)]

/-- `urllib.parse.quote(s)` with the default `safe='/'`: UTF-8-encode,
    keep bytes whose character is alphanumeric, `_.-~` or `/`, and
    percent-encode every other byte. -/
def pyQuote (s : List Char) : List Char :=
  s.flatMap (fun c =>
    (utf8Bytes c).flatMap (fun b =>
      if b < 128 ∧ (Char.ofNat b ∈ quoteAlwaysSafe ∨ Char.ofNat b = '/') then
        [Char.ofNat b]
      else percentByte b))

end PyPi

namespace Sha256

/-- Truncate to a 32-bit word. -/
def w32 (x : Nat) : Nat := x % 4294967296

/-- 32-bit right rotation. -/
def rotr (x n : Nat) : Nat := w32 ((x >>> n) ||| (x <<< (32 - n)))

/-- SHA-256 round constants. -/
def K : List Nat :=
  [1116352408, 1899447441, 3049323471, 3921009573, 961987163, 1508970993,
   2453635748, 2870763221, 3624381080, 310598401, 607225278, 1426881987,
   1925078388, 2162078206, 2614888103, 3248222580, 3835390401, 4022224774,
   264347078, 604807628, 770255983, 1249150122, 1555081692, 1996064986,
   2554220882, 2821834349, 2952996808, 3210313671, 3336571891, 3584528711,
   113926993, 338241895, 666307205, 773529912, 1294757372, 1396182291,
   1695183700, 1986661051, 2177026350, 2456956037, 2730485921, 2820302411,
   3259730800, 3345764771, 3516065817, 3600352804, 4094571909, 275423344,
   430227734, 506948616, 659060556, 883997877, 958139571, 1322822218,
   1537002063, 1747873779, 1955562222, 2024104815, 2227730452, 2361852424,
   2428436474, 2756734187, 3204031479, 3329325298]

/-- SHA-256 initial hash state. -/
def initH : List Nat :=
  [1779033703, 3144134277, 1013904242, 2773480762,
   1359893119, 2600822924, 528734635, 1541459225]

/-- Auxiliary for `chunksOf`: `cur` is the current chunk (reversed) and
    the `Nat` is its remaining capacity. -/
def chunksOfAux (n : Nat) : List α → List α → Nat → List (List α)
  | [], cur, _ => if cur.isEmpty then [] else [cur.reverse]
  | c :: rest, cur, 0 => cur.reverse :: chunksOfAux n rest [c] (n - 1)
  | c :: rest, cur, k + 1 => chunksOfAux n rest (c :: cur) k

/-- Split a list into chunks of `n` (the last may be shorter); empty for `n = 0`. -/
def chunksOf (n : Nat) (l : List α) : List (List α) :=
  if n = 0 then [] else chunksOfAux n l [] n

/-- SHA-256 message padding: append `0x80`, zeros, and the 64-bit
    big-endian bit length, to a multiple of 64 bytes. -/
def pad (msg : List Nat) : List Nat :=
  let len := msg.length
  let zeros := (119 - len % 64) % 64
  msg ++ 128 :: List.replicate zeros 0 ++
    [56, 48, 40, 32, 24, 16, 8, 0].map (fun sh => (len * 8) >>> sh % 256)

/-- Big-endian 32-bit word from four bytes. -/
def wordOfBytes (bs : List Nat) : Nat :=
  bs.foldl (fun acc b => acc * 256 + b) 0

def smallSigma0 (x : Nat) : Nat := (rotr x 7) ^^^ (rotr x 18) ^^^ (x >>> 3)
def smallSigma1 (x : Nat) : Nat := (rotr x 17) ^^^ (rotr x 19) ^^^ (x >>> 10)
def bigSigma0 (x : Nat) : Nat := (rotr x 2) ^^^ (rotr x 13) ^^^ (rotr x 22)
def bigSigma1 (x : Nat) : Nat := (rotr x 6) ^^^ (rotr x 11) ^^^ (rotr x 25)

/-- Extend a 16-word message schedule by `k` further words. -/
def extendSchedule : Nat → List Nat → List Nat
  | 0, ws => ws
  | k + 1, ws =>
    let n := ws.length
    extendSchedule k <| ws ++
      [w32 (smallSigma1 (ws.getD (n - 2) 0) + ws.getD (n - 7) 0 +
            smallSigma0 (ws.getD (n - 15) 0) + ws.getD (n - 16) 0)]

/-- One SHA-256 round: state is the 8-word list `[a,b,c,d,e,f,g,h]`. -/
def roundStep (st : List Nat) (kw : Nat × Nat) : List Nat :=
  let a := st.getD 0 0
  let b := st.getD 1 0
  let c := st.getD 2 0
  let d := st.getD 3 0
  let e := st.getD 4 0
  let f := st.getD 5 0
  let g := st.getD 6 0
  let h := st.getD 7 0
  let ch := (e &&& f) ^^^ ((4294967295 - e) &&& g)
  let maj := (a &&& b) ^^^ (a &&& c) ^^^ (b &&& c)
  let t1 := w32 (h + bigSigma1 e + ch + kw.1 + kw.2)
  let t2 := w32 (bigSigma0 a + maj)
  [w32 (t1 + t2), a, b, c, w32 (d + t1), e, f, g]

/-- Compress one 64-byte block into the hash state. -/
def compressBlock (h : List Nat) (block : List Nat) : List Nat :=
  let ws := extendSchedule 48 ((chunksOf 4 block).map wordOfBytes)
  let st := (K.zip ws).foldl roundStep h
  List.zipWith (fun x y => w32 (x + y)) h st

/-- Four big-endian bytes of a 32-bit word. -/
def bytesOfWord (x : Nat) : List Nat :=
  [x >>> 24 % 256, x >>> 16 % 256, x >>> 8 % 256, x % 256]

/-- SHA-256 digest (32 bytes) of a byte list. -/
def digestBytes (msg : List Nat) : List Nat :=
  ((chunksOf 64 (pad msg)).foldl compressBlock initH).flatMap bytesOfWord

/-- The sixteen lowercase hex digits. -/
def hexLowerChars : List Char := ("0123456789abcdef").toList

/-- Lowercase hex digit for a nibble. -/
def hexLowerDigit (n : Nat) : Char := hexLowerChars.getD n '0'

/-- Lowercase hex string of a byte list. -/
def bytesToHex (bs : List Nat) : List Char :=
  bs.flatMap (fun b => [hexLowerDigit (b / 16), hexLowerDigit (b % 16)])

/-- `hashlib.sha256(msg).hexdigest()`. -/
def hexdigest (msg : List Nat) : List Char := bytesToHex (digestBytes msg)

end Sha256

namespace PyPi

/-- A file on disk: an index document written in text mode, or an
    artifact (wheel) as raw bytes. -/
inductive FileData
  | text (s : List Char)
  | bin (b : List Nat)
deriving DecidableEq

/-- The file-system state: existing directories and an association list
    from paths to file data (first match wins; writes update in place). -/
structure FS where
  dirs : List (List Char)
  files : List (List Char × FileData)
deriving DecidableEq

/-- Mutating operations the script can perform, recorded as a trace.
    `writeTempRename`, `lockAcquire` and `lockRelease` are the
    mechanisms §5 of the design requires for index writes; the source
    never performs them, so no run emits these constructors. -/
inductive Event
  | mkdirs (p : List Char)
  | copyFile (src dst : List Char)
  | writeFile (p : List Char) (content : List Char)
  | writeTempRename (tmp target : List Char) (content : List Char)
  | lockAcquire (p : List Char)
  | lockRelease (p : List Char)
  | printMsg (m : List Char)
deriving DecidableEq

/-- First-match association lookup. -/
def fsLookup (fs : FS) (p : List Char) : Option FileData :=
  go fs.files
where
  go : List (List Char × FileData) → Option FileData
    | [] => none
    | (q, d) :: rest => if q = p then some d else go rest

/-- `os.path.exists`. -/
def fsExists (fs : FS) (p : List Char) : Bool :=
  (fsLookup fs p).isSome || p ∈ fs.dirs

/-- Update in place, or append if the key is new. -/
def setAssoc : List (List Char × FileData) → List Char → FileData → List (List Char × FileData)
  | [], p, d => [(p, d)]
  | (q, e) :: rest, p, d =>
    if q = p then (p, d) :: rest else (q, e) :: setAssoc rest p d

/-- `open(p, "w").write(...)`: create or truncate-and-rewrite. -/
def fsWrite (fs : FS) (p : List Char) (d : FileData) : FS :=
  ⟨fs.dirs, setAssoc fs.files p d⟩

/-- Read a text-mode file; `none` models the decode error raised when the
    path is missing or does not hold a text document. -/
def fsReadText (fs : FS) (p : List Char) : Option (List Char) :=
  match fsLookup fs p with
  | some (FileData.text s) => some s
  | _ => none

/-- Read a file opened in `rb` mode; `none` when the path is missing or
    holds a text-mode document (never the case in any modelled run). -/
def fsReadBin (fs : FS) (p : List Char) : Option (List Nat) :=
  match fsLookup fs p with
  | some (FileData.bin b) => some b
  | _ => none

/-- All `/`-separated prefixes of a path (the directories that
    `os.makedirs` ensures exist). -/
def pathPrefixes (p : List Char) : List (List Char) :=
  let comps := pySplitChar '/' p
  ((List.range comps.length).map
    (fun i => List.intercalate ['/'] (comps.take (i + 1)))).filter (fun q => q ≠ [])

/-- `os.makedirs(p, exist_ok=True)`. -/
def fsMakedirs (fs : FS) (p : List Char) : FS :=
  ⟨(pathPrefixes p).foldl (fun ds q => if q ∈ ds then ds else ds ++ [q]) fs.dirs,
   fs.files⟩

/-- `shutil.copy2(src, dst)`: duplicate the file data at `dst`. -/
def fsCopy (fs : FS) (src dst : List Char) : Option FS :=
  (fsLookup fs src).map (fun d => fsWrite fs dst d)

/-!  The script itself (`update_pypi_repo.py`).  `hashlib` is embedded
concretely above; `zipfile`-based metadata extraction
(`extract_requires_python`, source lines 19-32) depends only on the
wheel's bytes and returns either the `Requires-Python` string or `None`
(on any exception), so it is passed to the functions below as an
abstract `rp : List Nat → Option (List Char)`. -/

/-- `calculate_sha256` (source lines 10-16): stream the file in 8192-byte
    chunks through an accumulating hash object, then take the hex digest
    (the `hashlib` object state is its accumulated input). -/
def calculate_sha256 (fileBytes : List Nat) : List Char :=
  Sha256.hexdigest ((Sha256.chunksOf 8192 fileBytes).foldl (fun buf chunk => buf ++ chunk) [])

/-- The root-index link entry of source line 38:
    `<a href="{pkg_name}" rel="internal">{pkg_name}</a>`. -/
def rootLinkEntry (pkg_name : List Char) : List Char :=
  ("<a href=\"").toList ++ pkg_name ++ ("\" rel=\"internal\">").toList ++
    pkg_name ++ ("</a>").toList

/-- The fresh root index document of source line 46. -/
def rootNewContent (link_entry : List Char) : List Char :=
  ("<!DOCTYPE html>\n<html><head><title>Simple Index</title><meta name=\"api-version\" value=\"2\" /></head><body>\n").toList ++
    link_entry ++ ("\n</body></html>").toList

def indexHtml : List Char := ("index.html").toList
def bodyOpenTag : List Char := ("<body>").toList
def bodyCloseTag : List Char := ("</body>").toList

/-- `update_root_index` (source lines 35-49).  `none` models the
    exception raised if the existing index cannot be read as text. -/
def update_root_index (pkg_name root_dir : List Char) (fs : FS) :
    Option (FS × List Event) :=
  let index_file := pyPathJoin root_dir indexHtml
  let link_entry := rootLinkEntry pkg_name
  if fsExists fs index_file then
    match fsReadText fs index_file with
    | none => none
    | some content =>
      let content1 :=
        if pyContains content link_entry then content
        else pyReplace content bodyCloseTag (link_entry ++ '\n' :: bodyCloseTag)
      some (fsWrite fs index_file (FileData.text content1),
            [Event.writeFile index_file content1])
  else
    let content := rootNewContent link_entry
    some (fsWrite fs index_file (FileData.text content),
          [Event.writeFile index_file content])

/-- One iteration of the cleanup loop of source lines 68-77, acting on
    the state (`cleaned_content`, `inside_body`). -/
def mergeStep (link_entry : List Char) (st : List (List Char) × Bool)
    (line : List Char) : List (List Char) × Bool :=
  let stripped_line := pyStrip line
  let inside_body := if stripped_line = bodyOpenTag then true else st.2
  let acc := st.1 ++ [pyRstrip line]
  if stripped_line = bodyCloseTag ∧ inside_body then
    (acc.take (acc.length - 1) ++ link_entry :: acc.drop (acc.length - 1), false)
  else (acc, inside_body)

/-- The cleanup loop of source lines 67-79: right-strip every line and
    insert the link entry before the first `</body>` inside a body
    (`cleaned_content.insert(-1, link_entry)` inserts before the last
    element just appended). -/
def mergeIndexLines (link_entry : List Char) (lines : List (List Char)) :
    List (List Char) :=
  (lines.foldl (mergeStep link_entry) ([], false)).1

/-- The fresh package index of source lines 81-92. -/
def newPackageIndexLines (link_entry : List Char) : List (List Char) :=
  [("<!DOCTYPE html>").toList,
   ("<html>").toList,
   ("    <head>").toList,
   ("        <title>Simple Index</title>").toList,
   ("        <meta name=\"api-version\" value=\"2\"/>").toList,
   ("    </head>").toList,
   ("    <body>").toList,
   link_entry,
   ("    </body>").toList,
   ("</html>").toList]

/-- The chained `str.replace` escaping of source line 60. -/
def pyEscapeLtGt (s : List Char) : List Char :=
  pyReplace (pyReplace s (("<").toList) (("&lt;").toList)) ((">").toList) (("&gt;").toList)

/-- The artifact URL of source line 58:
    `{base_url}/{pkg_name}/{version}/{quote(whl_filename)}#sha256={hash}`. -/
def whlUrl (base_url pkg_name version whl_filename sha256_hash : List Char) : List Char :=
  base_url ++ '/' :: pkg_name ++ '/' :: version ++ '/' :: pyQuote whl_filename ++
    ("#sha256=").toList ++ sha256_hash

/-- The optional attribute of source line 60 (empty for `None` and for the
    empty string, both falsy in Python). -/
def requiresPythonAttr (requires_python : Option (List Char)) : List Char :=
  match requires_python with
  | some s =>
    if s ≠ [] then
      (" data-requires-python=\"").toList ++ pyEscapeLtGt s ++ ['\"']
    else []
  | none => []

/-- The package-index link entry of source line 61. -/
def pkgLinkEntry (whl_url attr whl_filename : List Char) : List Char :=
  ("        <a href=\"").toList ++ whl_url ++ '\"' :: attr ++
    (" rel=\"internal\">").toList ++ whl_filename ++ ("</a>").toList

/-- `update_package_index` (source lines 52-95).  `none` models the
    exceptions raised if the wheel cannot be opened in `rb` mode or the
    existing index cannot be read as text. -/
def update_package_index (pkg_name version whl_file root_dir base_url : List Char)
    (rp : List Nat → Option (List Char)) (fs : FS) : Option (FS × List Event) :=
  let package_dir := pyPathJoin root_dir pkg_name
  let index_file := pyPathJoin package_dir indexHtml
  match fsReadBin fs whl_file with
  | none => none
  | some bytes =>
    let sha256_hash := calculate_sha256 bytes
    let whl_filename := pyBasename whl_file
    let whl_url := whlUrl base_url pkg_name version whl_filename sha256_hash
    let requires_python := rp bytes
    let link_entry := pkgLinkEntry whl_url (requiresPythonAttr requires_python) whl_filename
    if fsExists fs index_file then
      match fsReadText fs index_file with
      | none => none
      | some text =>
        let content := mergeIndexLines link_entry (splitLinesKeepEnds text)
        some (fsWrite fs index_file (FileData.text (joinLines content)),
              [Event.writeFile index_file (joinLines content)])
    else
      let content := newPackageIndexLines link_entry
      some (fsWrite fs index_file (FileData.text (joinLines content)),
            [Event.writeFile index_file (joinLines content)])

def errNoFile (whl_file : List Char) : List Char :=
  ("Error: File ").toList ++ whl_file ++ (" does not exist.").toList

def errBadName (whl_filename : List Char) : List Char :=
  ("Error: Invalid .whl filename format: ").toList ++ whl_filename

def successMsg (whl_file : List Char) : List Char :=
  ("Successfully processed ").toList ++ whl_file ++ (" and updated index files.").toList

/-- `process_whl_file` (source lines 98-121), the top-level merge.  The
    early-return error paths leave the state untouched and only print; a
    `none` from a callee models an uncaught exception, leaving the state
    as mutated so far. -/
def process_whl_file (whl_file root_dir base_url : List Char)
    (rp : List Nat → Option (List Char)) (fs : FS) : FS × List Event :=
  if fsExists fs whl_file then
    let whl_filename := pyBasename whl_file
    let parts := pySplitChar '-' whl_filename
    if parts.length < 2 then
      (fs, [Event.printMsg (errBadName whl_filename)])
    else
      let pkg_name := parts.getD 0 []
      let version := parts.getD 1 []
      let pkg_version_dir := pyPathJoin (pyPathJoin root_dir pkg_name) version
      let fs1 := fsMakedirs fs pkg_version_dir
      let dest_whl_path := pyPathJoin pkg_version_dir whl_filename
      match fsCopy fs1 whl_file dest_whl_path with
      | none => (fs1, [Event.mkdirs pkg_version_dir])
      | some fs2 =>
        match update_root_index pkg_name root_dir fs2 with
        | none => (fs2, [Event.mkdirs pkg_version_dir, Event.copyFile whl_file dest_whl_path])
        | some (fs3, ev3) =>
          match update_package_index pkg_name version dest_whl_path root_dir base_url rp fs3 with
          | none =>
            (fs3, Event.mkdirs pkg_version_dir :: Event.copyFile whl_file dest_whl_path :: ev3)
          | some (fs4, ev4) =>
            (fs4, Event.mkdirs pkg_version_dir :: Event.copyFile whl_file dest_whl_path ::
                    (ev3 ++ ev4 ++ [Event.printMsg (successMsg whl_file)]))
  else
    (fs, [Event.printMsg (errNoFile whl_file)])

end PyPi

namespace PyPi

/-! ### Basic facts about the Python string primitives -/

lemma pyRstrip_append_last (s : List Char) (c : Char) (hc : isPySpace c = false) :
    pyRstrip (s ++ [c]) = s ++ [c] := by
  simp [pyRstrip, List.reverse_append, List.dropWhile_cons, hc]

lemma pyRstrip_append_newline (s : List Char) :
    pyRstrip (s ++ ['\n']) = pyRstrip s := by
  have h : isPySpace '\n' = true := by decide
  simp [pyRstrip, List.reverse_append, List.dropWhile_cons, h]

lemma pyStrip_append_newline (s : List Char) :
    pyStrip (s ++ ['\n']) = pyStrip s := by
  simp [pyStrip, pyRstrip_append_newline]

/-- A line that is free of newlines splits as itself. -/
lemma splitLines_single (l : List Char) (hne : l ≠ []) (hnl : '\n' ∉ l) :
    splitLinesKeepEnds l = [l] := by
  induction l with
  | nil => exact absurd rfl hne
  | cons c rest ih =>
    have hc : c ≠ '\n' := fun h => hnl (h ▸ List.mem_cons_self c rest)
    by_cases hr : rest = []
    · subst hr
      simp [splitLinesKeepEnds, hc]
    · have := ih hr (fun h => hnl (List.mem_cons_of_mem c h))
      simp [splitLinesKeepEnds, hc, this]

lemma splitLines_cons_line (l rest : List Char) (hnl : '\n' ∉ l) :
    splitLinesKeepEnds (l ++ '\n' :: rest) =
      (l ++ ['\n']) :: splitLinesKeepEnds rest := by
  induction l with
  | nil => simp [splitLinesKeepEnds]
  | cons c l' ih =>
    have hc : c ≠ '\n' := fun h => hnl (h ▸ List.mem_cons_self c l')
    have hrec := ih (fun h => hnl (List.mem_cons_of_mem c h))
    simp only [List.cons_append, splitLinesKeepEnds, hc, if_false]
    rw [List.append_eq, hrec]

/-- Round trip of `"\n".join` followed by `readlines`, for nonempty
    newline-free lines: every line except the last regains its `\n`. -/
lemma splitLines_joinLines :
    ∀ (ls : List (List Char)), ls ≠ [] → (∀ l ∈ ls, l ≠ [] ∧ '\n' ∉ l) →
      splitLinesKeepEnds (joinLines ls) =
        ls.dropLast.map (fun l => l ++ ['\n']) ++ [ls.getLastD []] := by
  intro ls
  induction ls with
  | nil => intro h; exact absurd rfl h
  | cons l ls ih =>
    intro _ hall
    rcases (hall l (List.mem_cons_self l ls)) with ⟨hne, hnl⟩
    cases ls with
    | nil =>
      simp [joinLines, List.intercalate, splitLines_single l hne hnl]
    | cons m ms =>
      have hjoin : joinLines (l :: m :: ms) = l ++ '\n' :: joinLines (m :: ms) := by
        simp [joinLines, List.intercalate, List.intersperse]
      have hrec := ih (by simp) (fun x hx => hall x (List.mem_cons_of_mem l hx))
      rw [hjoin, splitLines_cons_line l _ hnl, hrec]
      simp

/-! ### `str.replace` with a one-character pattern -/

lemma pyReplaceFuel_single (p : Char) (repl : List Char) :
    ∀ (s : List Char) (fuel : Nat), s.length ≤ fuel →
      pyReplaceFuel p [] repl fuel s =
        s.flatMap (fun c => if c = p then repl else [c]) := by
  intro s
  induction s with
  | nil => intro fuel _; cases fuel <;> rfl
  | cons c rest ih =>
    intro fuel hf
    cases fuel with
    | zero => simp at hf
    | succ k =>
      have hk : rest.length ≤ k := by simpa using hf
      by_cases hc : c = p
      · subst hc
        have hpre : (c :: []).isPrefixOf (c :: rest) = true := by
          simp [List.isPrefixOf]
        simp [pyReplaceFuel, hpre, ih k hk]
      · have hpre : (p :: []).isPrefixOf (c :: rest) = false := by
          simp [List.isPrefixOf]
          intro h
          exact absurd h.symm hc
        simp [pyReplaceFuel, hpre, ih k hk, hc]

lemma pyReplace_single (s : List Char) (p : Char) (repl : List Char) :
    pyReplace s [p] repl = s.flatMap (fun c => if c = p then repl else [c]) := by
  exact pyReplaceFuel_single p repl s s.length le_rfl

/-- Per-character rendering of the chained escape of source line 60. -/
def escLtGt (c : Char) : List Char :=
  if c = '<' then ("&lt;").toList else if c = '>' then ("&gt;").toList else [c]

lemma pyEscapeLtGt_flatMap (s : List Char) :
    pyEscapeLtGt s = s.flatMap escLtGt := by
  unfold pyEscapeLtGt
  rw [show ("<").toList = ['<'] from rfl, show (">").toList = ['>'] from rfl,
      pyReplace_single, pyReplace_single]
  induction s with
  | nil => rfl
  | cons c rest ih =>
    rw [List.flatMap_cons, List.flatMap_append, ih, List.flatMap_cons]
    congr 1
    by_cases h1 : c = '<'
    · subst h1; rfl
    · by_cases h2 : c = '>'
      · subst h2; rfl
      · simp [escLtGt, h1, h2]

lemma escLtGt_no_angle (c : Char) : ∀ d ∈ escLtGt c, d ≠ '<' ∧ d ≠ '>' := by
  intro d hd
  unfold escLtGt at hd
  by_cases h1 : c = '<'
  · simp [h1] at hd
    rcases hd with h | h | h | h <;> subst h <;> exact ⟨by decide, by decide⟩
  · by_cases h2 : c = '>'
    · simp [h1, h2] at hd
      rcases hd with h | h | h | h <;> subst h <;> exact ⟨by decide, by decide⟩
    · simp [h1, h2] at hd
      subst hd
      exact ⟨h1, h2⟩

end PyPi

namespace Sha256

lemma chunksOfAux_flatten (n : Nat) :
    ∀ (l cur : List α) (k : Nat),
      (chunksOfAux n l cur k).flatten = cur.reverse ++ l := by
  intro l
  induction l with
  | nil =>
    intro cur k
    by_cases h : cur.isEmpty
    · have : cur = [] := by simpa [List.isEmpty_iff] using h
      simp [chunksOfAux, h, this]
    · simp [chunksOfAux, h]
  | cons c rest ih =>
    intro cur k
    cases k with
    | zero => simp [chunksOfAux, ih [c] (n - 1)]
    | succ k => simp [chunksOfAux, ih (c :: cur) k]

lemma chunksOf_flatten (n : Nat) (hn : n ≠ 0) (l : List α) :
    (chunksOf n l).flatten = l := by
  simp [chunksOf, hn, chunksOfAux_flatten]

lemma foldl_append_flatten (ls : List (List α)) :
    ∀ acc : List α, ls.foldl (fun buf chunk => buf ++ chunk) acc = acc ++ ls.flatten := by
  induction ls with
  | nil => intro acc; simp
  | cons l ls ih => intro acc; simp [ih, List.append_assoc]

lemma length_roundStep (st : List Nat) (kw : Nat × Nat) :
    (roundStep st kw).length = 8 := by
  simp [roundStep]

lemma length_foldl_roundStep (l : List (Nat × Nat)) :
    ∀ st : List Nat, st.length = 8 → (l.foldl roundStep st).length = 8 := by
  induction l with
  | nil => intro st h; simpa using h
  | cons a l ih => intro st _; exact ih (roundStep st a) (length_roundStep st a)

lemma length_compressBlock (h : List Nat) (block : List Nat) (hh : h.length = 8) :
    (compressBlock h block).length = 8 := by
  unfold compressBlock
  rw [List.length_zipWith, hh, length_foldl_roundStep _ _ hh]
  simp

lemma length_foldl_compressBlock (blocks : List (List Nat)) :
    ∀ h : List Nat, h.length = 8 → (blocks.foldl compressBlock h).length = 8 := by
  induction blocks with
  | nil => intro h hh; simpa using hh
  | cons b blocks ih =>
    intro h hh
    exact ih (compressBlock h b) (length_compressBlock h b hh)

lemma length_digestBytes (msg : List Nat) : (digestBytes msg).length = 32 := by
  unfold digestBytes
  have h8 : ((chunksOf 64 (pad msg)).foldl compressBlock initH).length = 8 :=
    length_foldl_compressBlock _ initH (by decide)
  rw [List.length_flatMap]
  have : ∀ l : List Nat,
      (List.map (List.length ∘ bytesOfWord) l).sum = 4 * l.length := by
    intro l
    induction l with
    | nil => simp
    | cons x l ih => simp [ih, bytesOfWord]; ring
  rw [this, h8]

lemma length_bytesToHex (bs : List Nat) : (bytesToHex bs).length = 2 * bs.length := by
  unfold bytesToHex
  rw [List.length_flatMap]
  induction bs with
  | nil => simp
  | cons b bs ih => simp at ih ⊢; omega

lemma length_hexdigest (msg : List Nat) : (hexdigest msg).length = 64 := by
  unfold hexdigest
  rw [length_bytesToHex, length_digestBytes]

lemma hexLowerDigit_mem (n : Nat) : hexLowerDigit n ∈ hexLowerChars := by
  unfold hexLowerDigit
  rw [List.getD_eq_getElem?_getD]
  match h : hexLowerChars[n]? with
  | some c =>
    have := List.getElem?_mem h
    simpa [h] using this
  | none => simp [h]; decide

lemma hexdigest_mem (msg : List Nat) :
    ∀ c ∈ hexdigest msg, c ∈ hexLowerChars := by
  intro c hc
  unfold hexdigest bytesToHex at hc
  rcases List.mem_flatMap.mp hc with ⟨b, _, hb⟩
  simp only [List.mem_cons, List.not_mem_nil, or_false] at hb
  rcases hb with h | h
  · exact h ▸ hexLowerDigit_mem _
  · exact h ▸ hexLowerDigit_mem _

end Sha256

namespace PyPi

/-- The streaming digest equals the digest of the whole file. -/
lemma calculate_sha256_eq (b : List Nat) :
    calculate_sha256 b = Sha256.hexdigest b := by
  unfold calculate_sha256
  rw [Sha256.foldl_append_flatten, Sha256.chunksOf_flatten 8192 (by decide)]
  rfl

lemma calculate_sha256_mem (b : List Nat) :
    ∀ c ∈ calculate_sha256 b, c ∈ Sha256.hexLowerChars := by
  rw [calculate_sha256_eq]
  exact Sha256.hexdigest_mem b

/-- Splitting `a ++ sep :: rest` where `a` is separator-free yields `a`
    as the first segment. -/
lemma pySplitChar_append (sep : Char) (a rest : List Char) (ha : sep ∉ a) :
    pySplitChar sep (a ++ sep :: rest) = a :: pySplitChar sep rest := by
  induction a with
  | nil => simp [pySplitChar]
  | cons c a' ih =>
    have hc : c ≠ sep := fun h => ha (h ▸ List.mem_cons_self c a')
    have hrec := ih (fun h => ha (List.mem_cons_of_mem c h))
    have hcs : (c = sep) = False := by simp [hc]
    simp only [List.cons_append, pySplitChar, hcs, if_false, List.append_eq, hrec]

end PyPi

namespace PyPi

/-! ### The shape of package index documents -/

/-- The skeleton lines above the entries (source lines 81-88). -/
def skelPre : List (List Char) :=
  [("<!DOCTYPE html>").toList,
   ("<html>").toList,
   ("    <head>").toList,
   ("        <title>Simple Index</title>").toList,
   ("        <meta name=\"api-version\" value=\"2\"/>").toList,
   ("    </head>").toList,
   ("    <body>").toList]

/-- The skeleton lines below the entries (source lines 90-91). -/
def skelPost : List (List Char) :=
  [("    </body>").toList, ("</html>").toList]

/-- A package index holding the given entry lines. -/
def wfIndex (es : List (List Char)) : List (List Char) :=
  skelPre ++ es ++ skelPost

lemma newPackageIndexLines_wf (e : List Char) :
    newPackageIndexLines e = wfIndex [e] := rfl

/-- An entry line: already right-stripped, and never mistaken for a body
    marker by the cleanup loop. -/
def EntryOk (e : List Char) : Prop :=
  pyRstrip e = e ∧ pyStrip e ≠ bodyOpenTag ∧ pyStrip e ≠ bodyCloseTag

lemma insert_before_last {α : Type} (A : List α) (b x : α) :
    ((A ++ [b]).take ((A ++ [b]).length - 1) ++
      x :: (A ++ [b]).drop ((A ++ [b]).length - 1)) = A ++ [x, b] := by
  have h : (A ++ [b]).length - 1 = A.length := by simp
  rw [h, List.take_left, List.drop_left]

lemma mergeStep_entry (x e : List Char) (acc : List (List Char))
    (he : EntryOk e) :
    mergeStep x (acc, true) e = (acc ++ [e], true) := by
  rcases he with ⟨h1, h2, h3⟩
  simp [mergeStep, h1, h2, h3, ite_self]

lemma foldl_mergeStep_entries (x : List Char) (es : List (List Char))
    (hes : ∀ e ∈ es, EntryOk e) :
    ∀ acc, es.foldl (mergeStep x) (acc, true) = (acc ++ es, true) := by
  induction es with
  | nil => intro acc; simp
  | cons e es ih =>
    intro acc
    rw [List.foldl_cons, mergeStep_entry x e acc (hes e (List.mem_cons_self e es)),
        ih (fun f hf => hes f (List.mem_cons_of_mem e hf)) (acc ++ [e])]
    simp

/-- Merging an entry into a well-formed index appends it right before
    `</body>`. -/
lemma mergeIndexLines_wf (x : List Char) (es : List (List Char))
    (hes : ∀ e ∈ es, EntryOk e) :
    mergeIndexLines x (wfIndex es) = wfIndex (es ++ [x]) := by
  unfold mergeIndexLines wfIndex
  rw [List.foldl_append, List.foldl_append]
  have h1 : List.foldl (mergeStep x) (([], false) : List (List Char) × Bool) skelPre
      = (skelPre, true) := rfl
  rw [h1, foldl_mergeStep_entries x es hes skelPre]
  show (List.foldl (mergeStep x) _ [("    </body>").toList, ("</html>").toList]).1 = _
  rw [List.foldl_cons, List.foldl_cons, List.foldl_nil]
  have hA : mergeStep x (skelPre ++ es, true) (("    </body>").toList) =
      (((skelPre ++ es) ++ [("    </body>").toList]).take
          (((skelPre ++ es) ++ [("    </body>").toList]).length - 1) ++
        x :: ((skelPre ++ es) ++ [("    </body>").toList]).drop
          (((skelPre ++ es) ++ [("    </body>").toList]).length - 1), false) := rfl
  rw [hA, insert_before_last]
  have hB : mergeStep x ((skelPre ++ es) ++ [x, ("    </body>").toList], false)
      (("</html>").toList) =
      (((skelPre ++ es) ++ [x, ("    </body>").toList]) ++ [("</html>").toList], false) := rfl
  rw [hB]
  simp [skelPost]

/-- The cleanup loop looks at each line only through `strip` and
    `rstrip`. -/
lemma mergeStep_congr (x : List Char) (st : List (List Char) × Bool)
    (a b : List Char) (h1 : pyStrip a = pyStrip b) (h2 : pyRstrip a = pyRstrip b) :
    mergeStep x st a = mergeStep x st b := by
  simp [mergeStep, h1, h2]

lemma foldl_mergeStep_congr (x : List Char) :
    ∀ (l₁ l₂ : List (List Char)),
      List.Forall₂ (fun a b => pyStrip a = pyStrip b ∧ pyRstrip a = pyRstrip b) l₁ l₂ →
      ∀ st, l₁.foldl (mergeStep x) st = l₂.foldl (mergeStep x) st := by
  intro l₁ l₂ h
  induction h with
  | nil => intro st; rfl
  | cons hab htail ih =>
    intro st
    rw [List.foldl_cons, List.foldl_cons, mergeStep_congr x st _ _ hab.1 hab.2]
    exact ih _

lemma forall₂_append_pairs {α β : Type} {R : α → β → Prop}
    {l₁ l₃ : List α} {l₂ l₄ : List β}
    (h1 : List.Forall₂ R l₁ l₂) (h2 : List.Forall₂ R l₃ l₄) :
    List.Forall₂ R (l₁ ++ l₃) (l₂ ++ l₄) := by
  induction h1 with
  | nil => exact h2
  | cons hab _ ih => exact List.Forall₂.cons hab ih

lemma forall₂_noisy (init : List (List Char)) :
    List.Forall₂ (fun a b => pyStrip a = pyStrip b ∧ pyRstrip a = pyRstrip b)
      (init.map (fun l => l ++ ['\n'])) init := by
  induction init with
  | nil => exact List.Forall₂.nil
  | cons l init ih =>
    exact List.Forall₂.cons ⟨pyStrip_append_newline l, pyRstrip_append_newline l⟩ ih

/-- Serializing and re-reading a document does not change what the
    cleanup loop produces: the loop after a round trip equals the loop on
    the original lines. -/
lemma mergeIndexLines_roundTrip (x : List Char) (ls : List (List Char))
    (hne : ls ≠ []) (hls : ∀ l ∈ ls, l ≠ [] ∧ '\n' ∉ l) :
    mergeIndexLines x (splitLinesKeepEnds (joinLines ls)) = mergeIndexLines x ls := by
  obtain ⟨init, last, rfl⟩ : ∃ init last, ls = init ++ [last] :=
    ⟨ls.dropLast, ls.getLast hne, (List.dropLast_append_getLast hne).symm⟩
  rw [splitLines_joinLines _ hne hls]
  unfold mergeIndexLines
  have hdl : (init ++ [last]).dropLast = init := by simp
  have hgl : (init ++ [last]).getLastD [] = last := by
    simp [List.getLastD_eq_getLast?, List.getLast?_append]
  rw [hdl, hgl]
  have hf : List.Forall₂ (fun a b => pyStrip a = pyStrip b ∧ pyRstrip a = pyRstrip b)
      (init.map (fun l => l ++ ['\n']) ++ [last]) (init ++ [last]) :=
    forall₂_append_pairs (forall₂_noisy init)
      (List.Forall₂.cons ⟨rfl, rfl⟩ List.Forall₂.nil)
  rw [foldl_mergeStep_congr x _ _ hf]

end PyPi

namespace PyPi

/-! ### Characters appearing in rendered link entries -/

lemma hexUpperDigit_mem (n : Nat) :
    hexUpperDigit n ∈ ("0123456789ABCDEF").toList := by
  unfold hexUpperDigit
  rw [List.getD_eq_getElem?_getD]
  match h : (("0123456789ABCDEF").toList)[n]? with
  | some c =>
    have := List.getElem?_mem h
    simpa [h] using this
  | none => simp [h]

/-- Every character that `quote` emits is an always-safe character, a
    slash, a percent sign, or an uppercase hex digit. -/
lemma pyQuote_mem (s : List Char) :
    ∀ c ∈ pyQuote s,
      c ∈ quoteAlwaysSafe ∨ c = '/' ∨ c = '%' ∨ c ∈ ("0123456789ABCDEF").toList := by
  intro c hc
  unfold pyQuote at hc
  rcases List.mem_flatMap.mp hc with ⟨d, _, hd⟩
  rcases List.mem_flatMap.mp hd with ⟨b, _, hb⟩
  by_cases hcond : b < 128 ∧ (Char.ofNat b ∈ quoteAlwaysSafe ∨ Char.ofNat b = '/')
  · rw [if_pos hcond] at hb
    rcases List.mem_singleton.mp hb with rfl
    rcases hcond.2 with h | h
    · exact Or.inl h
    · exact Or.inr (Or.inl h)
  · rw [if_neg hcond] at hb
    unfold percentByte at hb
    simp only [List.mem_cons, List.not_mem_nil, or_false] at hb
    rcases hb with rfl | rfl | rfl
    · exact Or.inr (Or.inr (Or.inl rfl))
    · exact Or.inr (Or.inr (Or.inr (hexUpperDigit_mem _)))
    · exact Or.inr (Or.inr (Or.inr (hexUpperDigit_mem _)))

lemma pyQuote_not_mem (s : List Char) (c : Char)
    (h1 : c ∉ quoteAlwaysSafe) (h2 : c ≠ '/') (h3 : c ≠ '%')
    (h4 : c ∉ ("0123456789ABCDEF").toList) : c ∉ pyQuote s := by
  intro hc
  rcases pyQuote_mem s c hc with h | h | h | h
  · exact h1 h
  · exact h2 h
  · exact h3 h
  · exact h4 h

lemma pyEscapeLtGt_mem (s : List Char) :
    ∀ c ∈ pyEscapeLtGt s, c ∈ s ∨ c ∈ ("&lt;gt").toList := by
  intro c hc
  rw [pyEscapeLtGt_flatMap] at hc
  rcases List.mem_flatMap.mp hc with ⟨d, hd, hcd⟩
  by_cases h1 : d = '<'
  · subst h1
    rw [show escLtGt '<' = ['&', 'l', 't', ';'] from rfl] at hcd
    simp only [List.mem_cons, List.not_mem_nil, or_false] at hcd
    rcases hcd with rfl | rfl | rfl | rfl <;> (right; decide)
  · by_cases h2 : d = '>'
    · subst h2
      rw [show escLtGt '>' = ['&', 'g', 't', ';'] from rfl] at hcd
      simp only [List.mem_cons, List.not_mem_nil, or_false] at hcd
      rcases hcd with rfl | rfl | rfl | rfl <;> (right; decide)
    · rw [show escLtGt d = if d = '<' then ("&lt;").toList
            else if d = '>' then ("&gt;").toList else [d] from rfl,
          if_neg h1, if_neg h2] at hcd
      rcases List.mem_singleton.mp hcd with rfl
      exact Or.inl hd

lemma pyEscapeLtGt_not_mem (s : List Char) (c : Char)
    (h1 : c ∉ s) (h2 : c ∉ ("&lt;gt").toList) : c ∉ pyEscapeLtGt s := by
  intro hc
  rcases pyEscapeLtGt_mem s c hc with h | h
  · exact h1 h
  · exact h2 h

lemma whlUrl_not_mem (base pkg ver fname hash : List Char) (c : Char)
    (hb : c ∉ base) (hp : c ∉ pkg) (hv : c ∉ ver) (hq : c ∉ pyQuote fname)
    (hh : c ∉ hash) (hslash : c ≠ '/') (hlit : c ∉ ("#sha256=").toList) :
    c ∉ whlUrl base pkg ver fname hash := by
  intro hc
  unfold whlUrl at hc
  simp only [List.mem_append, List.mem_cons] at hc
  tauto

lemma requiresPythonAttr_not_mem (v : Option (List Char)) (c : Char)
    (hlit : c ∉ (" data-requires-python=\"").toList)
    (hesc : ∀ s, v = some s → c ∉ pyEscapeLtGt s) :
    c ∉ requiresPythonAttr v := by
  intro hc
  cases v with
  | none =>
    rw [show requiresPythonAttr none = [] from rfl] at hc
    cases hc
  | some s =>
    have hdef : requiresPythonAttr (some s) =
        if s ≠ [] then (" data-requires-python=\"").toList ++ pyEscapeLtGt s ++ ['\"'] else [] := rfl
    rw [hdef] at hc
    by_cases hs : s ≠ []
    · rw [if_pos hs] at hc
      simp only [List.mem_append, List.mem_cons, List.not_mem_nil, or_false] at hc
      rcases hc with (h | h) | h
      · exact hlit h
      · exact hesc s rfl h
      · exact hlit (by rw [h]; decide)
    · rw [if_neg hs] at hc; cases hc

lemma pkgLinkEntry_not_mem (u a n : List Char) (c : Char)
    (hu : c ∉ u) (ha : c ∉ a) (hn : c ∉ n)
    (hlit : c ∉ ("        <a href=\" rel=\"internal\"></a>").toList) :
    c ∉ pkgLinkEntry u a n := by
  intro hc
  unfold pkgLinkEntry at hc
  simp only [List.mem_append, List.mem_cons] at hc
  have l1 : c ∉ ("        <a href=\"").toList := fun h => hlit (by
    have : ∀ d ∈ ("        <a href=\"").toList,
        d ∈ ("        <a href=\" rel=\"internal\"></a>").toList := by decide
    exact this c h)
  have l2 : c ≠ '\"' := fun h => hlit (by rw [h]; decide)
  have l3 : c ∉ (" rel=\"internal\">").toList := fun h => hlit (by
    have : ∀ d ∈ (" rel=\"internal\">").toList,
        d ∈ ("        <a href=\" rel=\"internal\"></a>").toList := by decide
    exact this c h)
  have l4 : c ∉ ("</a>").toList := fun h => hlit (by
    have : ∀ d ∈ ("</a>").toList,
        d ∈ ("        <a href=\" rel=\"internal\"></a>").toList := by decide
    exact this c h)
  tauto

end PyPi

namespace PyPi

/-! ### Rendered link entries are well-behaved lines -/

lemma pkgLinkEntry_ne_nil (u a n : List Char) : pkgLinkEntry u a n ≠ [] := by
  unfold pkgLinkEntry
  intro h
  have := congrArg List.length h
  simp at this

lemma pkgLinkEntry_rstrip (u a n : List Char) :
    pyRstrip (pkgLinkEntry u a n) = pkgLinkEntry u a n := by
  have h : pkgLinkEntry u a n =
      (("        <a href=\"").toList ++ u ++ '\"' :: a ++ (" rel=\"internal\">").toList ++
        n ++ ['<', '/', 'a']) ++ ['>'] := by
    unfold pkgLinkEntry
    rw [show ("</a>").toList = ['<', '/', 'a'] ++ ['>'] from rfl]
    simp [List.append_assoc]
  rw [h, pyRstrip_append_last _ '>' (by decide), ← h]

lemma pkgLinkEntry_strip (u a n : List Char) :
    pyStrip (pkgLinkEntry u a n) =
      ("<a href=\"").toList ++ u ++ '\"' :: a ++ (" rel=\"internal\">").toList ++
        n ++ ("</a>").toList := by
  unfold pyStrip
  rw [pkgLinkEntry_rstrip]
  rfl

lemma pkgLinkEntry_entryOk (u a n : List Char) : EntryOk (pkgLinkEntry u a n) := by
  refine ⟨pkgLinkEntry_rstrip u a n, ?_, ?_⟩
  · rw [pkgLinkEntry_strip]
    intro heq
    have h1 := congrArg (fun l => l[1]?) heq
    simp only at h1
    rw [show (("<a href=\"").toList ++ u ++ '\"' :: a ++ (" rel=\"internal\">").toList ++
          n ++ ("</a>").toList)[1]? = some 'a' from rfl] at h1
    exact absurd h1 (by decide)
  · rw [pkgLinkEntry_strip]
    intro heq
    have h1 := congrArg (fun l => l[1]?) heq
    simp only at h1
    rw [show (("<a href=\"").toList ++ u ++ '\"' :: a ++ (" rel=\"internal\">").toList ++
          n ++ ("</a>").toList)[1]? = some 'a' from rfl] at h1
    exact absurd h1 (by decide)

lemma pkgLinkEntry_no_newline (u a n : List Char)
    (hu : '\n' ∉ u) (ha : '\n' ∉ a) (hn : '\n' ∉ n) :
    '\n' ∉ pkgLinkEntry u a n :=
  pkgLinkEntry_not_mem u a n '\n' hu ha hn (by decide)

/-- All composite facts about an entry line needed for re-merging. -/
lemma pkgLinkEntry_lineOk (u a n : List Char)
    (hu : '\n' ∉ u) (ha : '\n' ∉ a) (hn : '\n' ∉ n) :
    pkgLinkEntry u a n ≠ [] ∧ '\n' ∉ pkgLinkEntry u a n ∧ EntryOk (pkgLinkEntry u a n) :=
  ⟨pkgLinkEntry_ne_nil u a n, pkgLinkEntry_no_newline u a n hu ha hn,
   pkgLinkEntry_entryOk u a n⟩

lemma wfIndex_linesOk (es : List (List Char))
    (hes : ∀ e ∈ es, e ≠ [] ∧ '\n' ∉ e) :
    ∀ l ∈ wfIndex es, l ≠ [] ∧ '\n' ∉ l := by
  intro l hl
  unfold wfIndex at hl
  rcases List.mem_append.mp hl with h | h
  · rcases List.mem_append.mp h with h' | h'
    · unfold skelPre at h'
      fin_cases h' <;> exact ⟨by decide, by decide⟩
    · exact hes l h'
  · unfold skelPost at h
    fin_cases h <;> exact ⟨by decide, by decide⟩

end PyPi

namespace PyPi

/-! ### File-system level behaviour of the two index updates -/

lemma fsReadText_lookup (fs : FS) (p c : List Char)
    (h : fsReadText fs p = some c) : fsLookup fs p = some (FileData.text c) := by
  unfold fsReadText at h
  match hl : fsLookup fs p with
  | some (FileData.text s) =>
    rw [hl] at h
    cases h
    rfl
  | some (FileData.bin b) => rw [hl] at h; cases h
  | none => rw [hl] at h; cases h

lemma fsExists_of_readText (fs : FS) (p c : List Char)
    (h : fsReadText fs p = some c) : fsExists fs p = true := by
  unfold fsExists
  rw [fsReadText_lookup fs p c h]
  simp

/-- `update_root_index` on an existing root index: dedup by substring
    containment, else splice the entry before every `</body>`. -/
lemma update_root_index_existing (pkg root c : List Char) (fs : FS)
    (h : fsReadText fs (pyPathJoin root indexHtml) = some c) :
    update_root_index pkg root fs =
      some (fsWrite fs (pyPathJoin root indexHtml)
              (FileData.text (if pyContains c (rootLinkEntry pkg) then c
                else pyReplace c bodyCloseTag (rootLinkEntry pkg ++ '\n' :: bodyCloseTag))),
            [Event.writeFile (pyPathJoin root indexHtml)
              (if pyContains c (rootLinkEntry pkg) then c
                else pyReplace c bodyCloseTag (rootLinkEntry pkg ++ '\n' :: bodyCloseTag))]) := by
  have hex := fsExists_of_readText fs _ c h
  unfold update_root_index
  simp [hex, h]

lemma update_root_index_fresh (pkg root : List Char) (fs : FS)
    (hnx : fsExists fs (pyPathJoin root indexHtml) = false) :
    update_root_index pkg root fs =
      some (fsWrite fs (pyPathJoin root indexHtml)
              (FileData.text (rootNewContent (rootLinkEntry pkg))),
            [Event.writeFile (pyPathJoin root indexHtml)
              (rootNewContent (rootLinkEntry pkg))]) := by
  unfold update_root_index
  simp [hnx]

/-- The link entry that `update_package_index` builds for a wheel with
    bytes `b`. -/
def builtEntry (pkg ver whlf base : List Char) (rp : List Nat → Option (List Char))
    (b : List Nat) : List Char :=
  pkgLinkEntry (whlUrl base pkg ver (pyBasename whlf) (calculate_sha256 b))
    (requiresPythonAttr (rp b)) (pyBasename whlf)

/-- `update_package_index` merging into an existing well-formed index. -/
lemma update_package_index_existing
    (pkg ver whlf root base : List Char) (rp : List Nat → Option (List Char))
    (fs : FS) (b : List Nat) (es : List (List Char))
    (hb : fsReadBin fs whlf = some b)
    (ht : fsReadText fs (pyPathJoin (pyPathJoin root pkg) indexHtml) =
            some (joinLines (wfIndex es)))
    (hes : ∀ e ∈ es, e ≠ [] ∧ '\n' ∉ e ∧ EntryOk e) :
    update_package_index pkg ver whlf root base rp fs =
      some (fsWrite fs (pyPathJoin (pyPathJoin root pkg) indexHtml)
              (FileData.text (joinLines (wfIndex (es ++ [builtEntry pkg ver whlf base rp b])))),
            [Event.writeFile (pyPathJoin (pyPathJoin root pkg) indexHtml)
              (joinLines (wfIndex (es ++ [builtEntry pkg ver whlf base rp b])))]) := by
  have hmerge : mergeIndexLines
      (pkgLinkEntry (whlUrl base pkg ver (pyBasename whlf) (calculate_sha256 b))
        (requiresPythonAttr (rp b)) (pyBasename whlf))
      (splitLinesKeepEnds (joinLines (wfIndex es))) =
      wfIndex (es ++ [builtEntry pkg ver whlf base rp b]) := by
    show mergeIndexLines (builtEntry pkg ver whlf base rp b) _ = _
    rw [mergeIndexLines_roundTrip _ (wfIndex es) (by simp [wfIndex, skelPre])
          (wfIndex_linesOk es (fun e he => ⟨(hes e he).1, (hes e he).2.1⟩)),
        mergeIndexLines_wf _ es (fun e he => (hes e he).2.2)]
  have hex := fsExists_of_readText fs _ _ ht
  unfold update_package_index
  simp only [hb, hex, ht, if_true]
  simp only [hmerge]

/-- `update_package_index` creating a fresh index. -/
lemma update_package_index_fresh
    (pkg ver whlf root base : List Char) (rp : List Nat → Option (List Char))
    (fs : FS) (b : List Nat)
    (hb : fsReadBin fs whlf = some b)
    (hnx : fsExists fs (pyPathJoin (pyPathJoin root pkg) indexHtml) = false) :
    update_package_index pkg ver whlf root base rp fs =
      some (fsWrite fs (pyPathJoin (pyPathJoin root pkg) indexHtml)
              (FileData.text (joinLines (newPackageIndexLines (builtEntry pkg ver whlf base rp b)))),
            [Event.writeFile (pyPathJoin (pyPathJoin root pkg) indexHtml)
              (joinLines (newPackageIndexLines (builtEntry pkg ver whlf base rp b)))]) := by
  unfold update_package_index
  simp [hb, hnx, builtEntry]

end PyPi

namespace PyPi

/-- The only property of the `zipfile`-based metadata extraction that the
    index proofs rely on: extracted `Requires-Python` strings contain no
    newline (a single `Key: value` line can never contain one). -/
def RpOk (rp : List Nat → Option (List Char)) : Prop :=
  ∀ b s, rp b = some s → '\n' ∉ s

/-- Hex digest characters are never newlines or angle brackets. -/
lemma hexLower_no_newline : ∀ c ∈ Sha256.hexLowerChars, c ≠ '\n' ∧ c ≠ '>' := by decide

lemma builtEntry_ok (pkg ver whlf base : List Char)
    (rp : List Nat → Option (List Char)) (b : List Nat)
    (hpkg : '\n' ∉ pkg) (hver : '\n' ∉ ver) (hbase : '\n' ∉ base)
    (hname : '\n' ∉ pyBasename whlf) (hrp : RpOk rp) :
    builtEntry pkg ver whlf base rp b ≠ [] ∧
      '\n' ∉ builtEntry pkg ver whlf base rp b ∧
      EntryOk (builtEntry pkg ver whlf base rp b) := by
  have hurl : '\n' ∉ whlUrl base pkg ver (pyBasename whlf) (calculate_sha256 b) := by
    refine whlUrl_not_mem _ _ _ _ _ _ hbase hpkg hver ?_ ?_ (by decide) (by decide)
    · exact pyQuote_not_mem _ _ (by decide) (by decide) (by decide) (by decide)
    · intro hc
      exact (hexLower_no_newline '\n' (calculate_sha256_mem b '\n' hc)).1 rfl
  have hattr : '\n' ∉ requiresPythonAttr (rp b) := by
    refine requiresPythonAttr_not_mem _ _ (by decide) ?_
    intro s hs
    exact pyEscapeLtGt_not_mem s '\n' (hrp b s hs) (by decide)
  exact pkgLinkEntry_lineOk _ _ _ hurl hattr hname

end PyPi

namespace Scenario

open PyPi

/-! ### The concrete repository scenarios of §8 of the design -/

def srcPath : List Char := ("/src/examplepkg-1.0.0-py3-none-any.whl").toList
def repoRoot : List Char := ("/repo").toList
def baseUrl : List Char := ("https://repo.example/simple").toList
def pkgName : List Char := ("examplepkg").toList
def verOne : List Char := ("1.0.0").toList
def destPath : List Char :=
  ("/repo/examplepkg/1.0.0/examplepkg-1.0.0-py3-none-any.whl").toList
def rootIndexPath : List Char := ("/repo/index.html").toList
def pkgIndexPath : List Char := ("/repo/examplepkg/index.html").toList

/-- A fresh repository: only the source wheel (bytes `b`) exists. -/
def fs0 (b : List Nat) : FS := ⟨[], [(srcPath, FileData.bin b)]⟩

def repoDirs : List (List Char) :=
  [("/repo").toList, ("/repo/examplepkg").toList, ("/repo/examplepkg/1.0.0").toList]

/-- The package-index link entry for version 1.0.0. -/
def entry1 (b : List Nat) (rp : List Nat → Option (List Char)) : List Char :=
  builtEntry pkgName verOne destPath baseUrl rp b

def rootContent1 : List Char := rootNewContent (rootLinkEntry pkgName)

/-- Repository state after one merge of the 1.0.0 wheel. -/
def fs1 (b : List Nat) (rp : List Nat → Option (List Char)) : FS :=
  ⟨repoDirs,
   [(srcPath, FileData.bin b), (destPath, FileData.bin b),
    (rootIndexPath, FileData.text rootContent1),
    (pkgIndexPath, FileData.text (joinLines (wfIndex [entry1 b rp])))]⟩

def trace1 (b : List Nat) (rp : List Nat → Option (List Char)) : List Event :=
  [Event.mkdirs (("/repo/examplepkg/1.0.0").toList),
   Event.copyFile srcPath destPath,
   Event.writeFile rootIndexPath rootContent1,
   Event.writeFile pkgIndexPath (joinLines (wfIndex [entry1 b rp])),
   Event.printMsg (successMsg srcPath)]

/-- First merge into the fresh repository: pure computation. -/
lemma firstMerge (b : List Nat) (rp : List Nat → Option (List Char)) :
    process_whl_file srcPath repoRoot baseUrl rp (fs0 b) = (fs1 b rp, trace1 b rp) := rfl

end Scenario

namespace Scenario

open PyPi

/-- Repository state after merging the same 1.0.0 wheel twice: the
    package index now carries the same entry twice. -/
def fs2 (b : List Nat) (rp : List Nat → Option (List Char)) : FS :=
  ⟨repoDirs,
   [(srcPath, FileData.bin b), (destPath, FileData.bin b),
    (rootIndexPath, FileData.text rootContent1),
    (pkgIndexPath, FileData.text (joinLines (wfIndex [entry1 b rp, entry1 b rp])))]⟩

def trace2 (b : List Nat) (rp : List Nat → Option (List Char)) : List Event :=
  [Event.mkdirs (("/repo/examplepkg/1.0.0").toList),
   Event.copyFile srcPath destPath,
   Event.writeFile rootIndexPath rootContent1,
   Event.writeFile pkgIndexPath (joinLines (wfIndex [entry1 b rp, entry1 b rp])),
   Event.printMsg (successMsg srcPath)]

set_option maxRecDepth 1000000 in
/-- Merging the same wheel a second time duplicates its package-index
    entry and leaves everything else unchanged. -/
lemma secondMerge (b : List Nat) (rp : List Nat → Option (List Char)) (hrp : RpOk rp) :
    process_whl_file srcPath repoRoot baseUrl rp (fs1 b rp) = (fs2 b rp, trace2 b rp) := by
  have hes : ∀ e ∈ [entry1 b rp], e ≠ [] ∧ '\n' ∉ e ∧ EntryOk e := by
    intro e he
    rcases List.mem_singleton.mp he with rfl
    exact builtEntry_ok pkgName verOne destPath baseUrl rp b
      (by decide) (by decide) (by decide) (by decide) hrp
  have hpkg := update_package_index_existing pkgName verOne destPath repoRoot baseUrl
    rp (fs1 b rp) b [entry1 b rp] rfl rfl hes
  show (match update_package_index pkgName verOne destPath repoRoot baseUrl rp (fs1 b rp) with
        | none => (fs1 b rp,
            Event.mkdirs (("/repo/examplepkg/1.0.0").toList) ::
              Event.copyFile srcPath destPath :: [Event.writeFile rootIndexPath rootContent1])
        | some (fs4, ev4) => (fs4,
            Event.mkdirs (("/repo/examplepkg/1.0.0").toList) ::
              Event.copyFile srcPath destPath ::
                ([Event.writeFile rootIndexPath rootContent1] ++ ev4 ++
                  [Event.printMsg (successMsg srcPath)]))) = (fs2 b rp, trace2 b rp)
  rw [hpkg]
  rfl

end Scenario

namespace Scenario

open PyPi

/-! ### Merging a second version of the same package -/

def srcPath2 : List Char := ("/src/examplepkg-2.0.0-py3-none-any.whl").toList
def verTwo : List Char := ("2.0.0").toList
def destPath2 : List Char :=
  ("/repo/examplepkg/2.0.0/examplepkg-2.0.0-py3-none-any.whl").toList
def verTwoDir : List Char := ("/repo/examplepkg/2.0.0").toList

/-- A fresh repository holding the 1.0.0 and 2.0.0 wheels. -/
def fsB (b1 b2 : List Nat) : FS :=
  ⟨[], [(srcPath, FileData.bin b1), (srcPath2, FileData.bin b2)]⟩

/-- The package-index link entry for version 2.0.0. -/
def entry2 (b2 : List Nat) (rp : List Nat → Option (List Char)) : List Char :=
  builtEntry pkgName verTwo destPath2 baseUrl rp b2

/-- State after merging 1.0.0 into the two-wheel repository. -/
def fsB1 (b1 b2 : List Nat) (rp : List Nat → Option (List Char)) : FS :=
  ⟨repoDirs,
   [(srcPath, FileData.bin b1), (srcPath2, FileData.bin b2),
    (destPath, FileData.bin b1),
    (rootIndexPath, FileData.text rootContent1),
    (pkgIndexPath, FileData.text (joinLines (wfIndex [entry1 b1 rp])))]⟩

lemma firstMergeB (b1 b2 : List Nat) (rp : List Nat → Option (List Char)) :
    process_whl_file srcPath repoRoot baseUrl rp (fsB b1 b2) =
      (fsB1 b1 b2 rp, trace1 b1 rp) := rfl

/-- The intermediate state of the second run, after the 2.0.0 wheel is
    copied and the root index rewritten unchanged. -/
def fsBmid (b1 b2 : List Nat) (rp : List Nat → Option (List Char)) : FS :=
  ⟨repoDirs ++ [verTwoDir],
   [(srcPath, FileData.bin b1), (srcPath2, FileData.bin b2),
    (destPath, FileData.bin b1),
    (rootIndexPath, FileData.text rootContent1),
    (pkgIndexPath, FileData.text (joinLines (wfIndex [entry1 b1 rp]))),
    (destPath2, FileData.bin b2)]⟩

/-- State after also merging 2.0.0: two entries, the 1.0.0 line first and
    unchanged. -/
def fsB2 (b1 b2 : List Nat) (rp : List Nat → Option (List Char)) : FS :=
  ⟨repoDirs ++ [verTwoDir],
   [(srcPath, FileData.bin b1), (srcPath2, FileData.bin b2),
    (destPath, FileData.bin b1),
    (rootIndexPath, FileData.text rootContent1),
    (pkgIndexPath, FileData.text (joinLines (wfIndex [entry1 b1 rp, entry2 b2 rp]))),
    (destPath2, FileData.bin b2)]⟩

def traceB2 (b1 b2 : List Nat) (rp : List Nat → Option (List Char)) : List Event :=
  [Event.mkdirs verTwoDir,
   Event.copyFile srcPath2 destPath2,
   Event.writeFile rootIndexPath rootContent1,
   Event.writeFile pkgIndexPath (joinLines (wfIndex [entry1 b1 rp, entry2 b2 rp])),
   Event.printMsg (successMsg srcPath2)]

set_option maxRecDepth 1000000 in
/-- Merging 2.0.0 after 1.0.0 appends a second entry after the untouched
    1.0.0 entry and leaves the root index unchanged. -/
lemma secondMergeB (b1 b2 : List Nat) (rp : List Nat → Option (List Char)) (hrp : RpOk rp) :
    process_whl_file srcPath2 repoRoot baseUrl rp (fsB1 b1 b2 rp) =
      (fsB2 b1 b2 rp, traceB2 b1 b2 rp) := by
  have hes : ∀ e ∈ [entry1 b1 rp], e ≠ [] ∧ '\n' ∉ e ∧ EntryOk e := by
    intro e he
    rcases List.mem_singleton.mp he with rfl
    exact builtEntry_ok pkgName verOne destPath baseUrl rp b1
      (by decide) (by decide) (by decide) (by decide) hrp
  have hpkg := update_package_index_existing pkgName verTwo destPath2 repoRoot baseUrl
    rp (fsBmid b1 b2 rp) b2 [entry1 b1 rp] rfl rfl hes
  show (match update_package_index pkgName verTwo destPath2 repoRoot baseUrl rp
          (fsBmid b1 b2 rp) with
        | none => (fsBmid b1 b2 rp,
            Event.mkdirs verTwoDir ::
              Event.copyFile srcPath2 destPath2 :: [Event.writeFile rootIndexPath rootContent1])
        | some (fs4, ev4) => (fs4,
            Event.mkdirs verTwoDir ::
              Event.copyFile srcPath2 destPath2 ::
                ([Event.writeFile rootIndexPath rootContent1] ++ ev4 ++
                  [Event.printMsg (successMsg srcPath2)]))) = (fsB2 b1 b2 rp, traceB2 b1 b2 rp)
  rw [hpkg]
  rfl

end Scenario

namespace PyPi

/-! ### Claim theorems -/

/-- C6: if the source artifact path does not exist, or its base file name
    cannot be split by `-` into at least two segments, `process_whl_file`
    aborts before any mutation: the file system is unchanged and the only
    effect is an error message. -/
theorem claimC6_abort_before_mutation (whl root base : List Char)
    (rp : List Nat → Option (List Char)) (fs : FS)
    (h : fsExists fs whl = false ∨ (pySplitChar '-' (pyBasename whl)).length < 2) :
    (process_whl_file whl root base rp fs).1 = fs ∧
      ∀ e ∈ (process_whl_file whl root base rp fs).2, ∃ m, e = Event.printMsg m := by
  rcases h with h | h
  · have heq : process_whl_file whl root base rp fs =
        (fs, [Event.printMsg (errNoFile whl)]) := by
      unfold process_whl_file
      simp [h]
    rw [heq]
    exact ⟨rfl, fun e he => by
      simp only [List.mem_singleton] at he
      exact ⟨_, he⟩⟩
  · by_cases hex : fsExists fs whl = true
    · have heq : process_whl_file whl root base rp fs =
          (fs, [Event.printMsg (errBadName (pyBasename whl))]) := by
        unfold process_whl_file
        simp [hex, h]
      rw [heq]
      exact ⟨rfl, fun e he => by
        simp only [List.mem_singleton] at he
        exact ⟨_, he⟩⟩
    · have heq : process_whl_file whl root base rp fs =
          (fs, [Event.printMsg (errNoFile whl)]) := by
        unfold process_whl_file
        simp only [Bool.not_eq_true] at hex
        simp [hex]
      rw [heq]
      exact ⟨rfl, fun e he => by
        simp only [List.mem_singleton] at he
        exact ⟨_, he⟩⟩

/-- Witness for C6 at a concrete missing file. -/
theorem claimC6_witness :
    (fsExists (FS.mk [] []) (("/x-1.whl").toList) = false ∨
      (pySplitChar '-' (pyBasename (("/x-1.whl").toList))).length < 2) ∧
    (process_whl_file (("/x-1.whl").toList) (("/repo").toList) (("b").toList)
        (fun _ => none) (FS.mk [] [])).1 = FS.mk [] [] :=
  ⟨Or.inl (by decide),
   (claimC6_abort_before_mutation (("/x-1.whl").toList) (("/repo").toList) (("b").toList)
      (fun _ => none) (FS.mk [] []) (Or.inl (by decide))).1⟩

/-- C7: the `Requires-Python` attribute value has every `<` and `>`
    escaped to `&lt;` / `&gt;` (character-wise, so no raw angle bracket
    survives), and the href percent-encodes exactly the artifact file
    name component, leaving base URL, package name and version verbatim. -/
theorem claimC7_escaping_and_quoting (s base pkg ver fname hash : List Char)
    (hs : s ≠ []) :
    requiresPythonAttr (some s) =
      (" data-requires-python=\"").toList ++ s.flatMap escLtGt ++ ['\"'] ∧
    (∀ c ∈ pyEscapeLtGt s, c ≠ '<' ∧ c ≠ '>') ∧
    whlUrl base pkg ver fname hash =
      base ++ '/' :: pkg ++ '/' :: ver ++ '/' :: pyQuote fname ++
        ("#sha256=").toList ++ hash := by
  refine ⟨?_, ?_, rfl⟩
  · have hdef : requiresPythonAttr (some s) =
        if s ≠ [] then (" data-requires-python=\"").toList ++ pyEscapeLtGt s ++ ['\"'] else [] := rfl
    rw [hdef, if_pos hs, pyEscapeLtGt_flatMap]
  · intro c hc
    rw [pyEscapeLtGt_flatMap] at hc
    rcases List.mem_flatMap.mp hc with ⟨d, _, hd⟩
    exact escLtGt_no_angle d c hd

/-- Witness for C7 at the constraint string `<3`. -/
theorem claimC7_witness :
    ("<3").toList ≠ [] ∧
    (requiresPythonAttr (some (("<3").toList)) =
      (" data-requires-python=\"").toList ++ (("<3").toList).flatMap escLtGt ++ ['\"'] ∧
    (∀ c ∈ pyEscapeLtGt (("<3").toList), c ≠ '<' ∧ c ≠ '>') ∧
    whlUrl (("b").toList) (("p").toList) (("v").toList) (("f.whl").toList) (("h").toList) =
      ("b").toList ++ '/' :: ("p").toList ++ '/' :: ("v").toList ++ '/' ::
        pyQuote (("f.whl").toList) ++ ("#sha256=").toList ++ ("h").toList) :=
  ⟨by decide,
   claimC7_escaping_and_quoting (("<3").toList) (("b").toList) (("p").toList)
     (("v").toList) (("f.whl").toList) (("h").toList) (by decide)⟩

/-- C10: on an existing root index, if the exact entry string already
    occurs anywhere in the text the file is rewritten byte-identically
    with nothing added; otherwise the entry plus a newline is spliced in
    before every occurrence of `</body>` (Python `str.replace` replaces
    every occurrence). -/
theorem claimC10_root_index_update (pkg root c : List Char) (fs : FS)
    (h : fsReadText fs (pyPathJoin root indexHtml) = some c) :
    update_root_index pkg root fs =
      some (fsWrite fs (pyPathJoin root indexHtml)
              (FileData.text (if pyContains c (rootLinkEntry pkg) then c
                else pyReplace c bodyCloseTag (rootLinkEntry pkg ++ '\n' :: bodyCloseTag))),
            [Event.writeFile (pyPathJoin root indexHtml)
              (if pyContains c (rootLinkEntry pkg) then c
                else pyReplace c bodyCloseTag (rootLinkEntry pkg ++ '\n' :: bodyCloseTag))]) :=
  update_root_index_existing pkg root c fs h

/-- Witness for C10 on a two-body document lacking the entry. -/
theorem claimC10_witness :
    fsReadText (FS.mk [] [(("/r/index.html").toList,
        FileData.text (("A</body>B</body>").toList))]) ((("/r/index.html")).toList) =
      some (("A</body>B</body>").toList) ∧
    update_root_index (("p").toList) (("/r").toList)
        (FS.mk [] [(("/r/index.html").toList,
          FileData.text (("A</body>B</body>").toList))]) =
      some (fsWrite (FS.mk [] [(("/r/index.html").toList,
              FileData.text (("A</body>B</body>").toList))])
              (pyPathJoin (("/r").toList) indexHtml)
              (FileData.text (if pyContains (("A</body>B</body>").toList)
                  (rootLinkEntry (("p").toList)) then ("A</body>B</body>").toList
                else pyReplace (("A</body>B</body>").toList) bodyCloseTag
                  (rootLinkEntry (("p").toList) ++ '\n' :: bodyCloseTag))),
            [Event.writeFile (pyPathJoin (("/r").toList) indexHtml)
              (if pyContains (("A</body>B</body>").toList)
                  (rootLinkEntry (("p").toList)) then ("A</body>B</body>").toList
                else pyReplace (("A</body>B</body>").toList) bodyCloseTag
                  (rootLinkEntry (("p").toList) ++ '\n' :: bodyCloseTag))]) :=
  ⟨rfl, claimC10_root_index_update (("p").toList) (("/r").toList)
     (("A</body>B</body>").toList) _ rfl⟩

/-- C5: the digest operation equals the SHA-256 of the whole file (the
    8192-byte streaming accumulation is transparent), yields a 64-character
    lowercase-hex string, and the `#sha256=` fragment rendered into the
    package index is the digest of the bytes stored at the artifact's
    final location (the copied file, whose bytes the same run stores). -/
theorem claimC5_digest_correct (b : List Nat) (rp : List Nat → Option (List Char)) :
    calculate_sha256 b = Sha256.hexdigest b ∧
    (calculate_sha256 b).length = 64 ∧
    (∀ c ∈ calculate_sha256 b, c ∈ Sha256.hexLowerChars) ∧
    fsReadBin (process_whl_file Scenario.srcPath Scenario.repoRoot Scenario.baseUrl rp
        (Scenario.fs0 b)).1 Scenario.destPath = some b ∧
    fsReadText (process_whl_file Scenario.srcPath Scenario.repoRoot Scenario.baseUrl rp
        (Scenario.fs0 b)).1 Scenario.pkgIndexPath =
      some (joinLines (wfIndex [pkgLinkEntry
        (whlUrl Scenario.baseUrl Scenario.pkgName Scenario.verOne
          (pyBasename Scenario.destPath) (calculate_sha256 b))
        (requiresPythonAttr (rp b)) (pyBasename Scenario.destPath)])) := by
  refine ⟨calculate_sha256_eq b, ?_, calculate_sha256_mem b, ?_, ?_⟩
  · rw [calculate_sha256_eq]
    exact Sha256.length_hexdigest b
  · rw [Scenario.firstMerge b rp]
    rfl
  · rw [Scenario.firstMerge b rp]
    rfl

end PyPi

namespace PyPi

set_option maxRecDepth 2000000 in
/-- C2 counterexample: merging the same wheel twice does not leave the
    repository in the same state as merging it once — the second run
    appends a duplicate link entry to the package index. -/
theorem claimC2_counterexample :
    (process_whl_file Scenario.srcPath Scenario.repoRoot Scenario.baseUrl (fun _ => none)
      ((process_whl_file Scenario.srcPath Scenario.repoRoot Scenario.baseUrl (fun _ => none)
        (Scenario.fs0 [])).1)).1 ≠
    (process_whl_file Scenario.srcPath Scenario.repoRoot Scenario.baseUrl (fun _ => none)
      (Scenario.fs0 [])).1 := by decide

/-- C2 amended: re-processing the same artifact leaves the root index,
    the stored artifact bytes, and the artifact copy unchanged, but the
    package index gains a second identical link entry instead of staying
    the same. -/
theorem claimC2_amended (b : List Nat) (rp : List Nat → Option (List Char))
    (hrp : RpOk rp) :
    fsReadText (process_whl_file Scenario.srcPath Scenario.repoRoot Scenario.baseUrl rp
        ((process_whl_file Scenario.srcPath Scenario.repoRoot Scenario.baseUrl rp
          (Scenario.fs0 b)).1)).1 Scenario.rootIndexPath =
      fsReadText (process_whl_file Scenario.srcPath Scenario.repoRoot Scenario.baseUrl rp
        (Scenario.fs0 b)).1 Scenario.rootIndexPath ∧
    fsReadBin (process_whl_file Scenario.srcPath Scenario.repoRoot Scenario.baseUrl rp
        ((process_whl_file Scenario.srcPath Scenario.repoRoot Scenario.baseUrl rp
          (Scenario.fs0 b)).1)).1 Scenario.destPath =
      fsReadBin (process_whl_file Scenario.srcPath Scenario.repoRoot Scenario.baseUrl rp
        (Scenario.fs0 b)).1 Scenario.destPath ∧
    fsReadText (process_whl_file Scenario.srcPath Scenario.repoRoot Scenario.baseUrl rp
        (Scenario.fs0 b)).1 Scenario.pkgIndexPath =
      some (joinLines (wfIndex [Scenario.entry1 b rp])) ∧
    fsReadText (process_whl_file Scenario.srcPath Scenario.repoRoot Scenario.baseUrl rp
        ((process_whl_file Scenario.srcPath Scenario.repoRoot Scenario.baseUrl rp
          (Scenario.fs0 b)).1)).1 Scenario.pkgIndexPath =
      some (joinLines (wfIndex [Scenario.entry1 b rp, Scenario.entry1 b rp])) := by
  rw [Scenario.firstMerge b rp]
  have h2 := Scenario.secondMerge b rp hrp
  rw [show ((Scenario.fs1 b rp, Scenario.trace1 b rp)).1 = Scenario.fs1 b rp from rfl, h2]
  exact ⟨rfl, rfl, rfl, rfl⟩

/-- Witness for C2 amended at the empty wheel and absent metadata. -/
theorem claimC2_witness :
    RpOk (fun _ => none) ∧
    fsReadText (process_whl_file Scenario.srcPath Scenario.repoRoot Scenario.baseUrl
        (fun _ => none) ((process_whl_file Scenario.srcPath Scenario.repoRoot
          Scenario.baseUrl (fun _ => none) (Scenario.fs0 [])).1)).1 Scenario.pkgIndexPath =
      some (joinLines (wfIndex [Scenario.entry1 [] (fun _ => none),
        Scenario.entry1 [] (fun _ => none)])) :=
  ⟨fun _ s h => Option.noConfusion h,
   (claimC2_amended [] (fun _ => none) (fun _ s h => Option.noConfusion h)).2.2.2⟩

end PyPi

namespace PyPi

/-- A line rendering a link entry: stripped, it starts with `<a href=`. -/
def isLinkEntryLine (l : List Char) : Bool :=
  (("<a href=").toList).isPrefixOf (pyStrip l)

lemma isLinkEntryLine_pkgLinkEntry (u a n : List Char) :
    isLinkEntryLine (pkgLinkEntry u a n) = true := by
  unfold isLinkEntryLine
  rw [pkgLinkEntry_strip]
  rfl

lemma countP_wfIndex (es : List (List Char)) :
    (wfIndex es).countP isLinkEntryLine = es.countP isLinkEntryLine := by
  unfold wfIndex
  rw [List.countP_append, List.countP_append]
  have h1 : skelPre.countP isLinkEntryLine = 0 := by decide
  have h2 : skelPost.countP isLinkEntryLine = 0 := by decide
  omega

/-- C8: after merging 1.0.0 and then 2.0.0 of the same package, the root
    index is unchanged by the second merge and shows exactly one link
    entry, while the package index holds exactly two entries with the
    1.0.0 entry line first and unchanged. -/
theorem claimC8_second_version (b1 b2 : List Nat)
    (rp : List Nat → Option (List Char)) (hrp : RpOk rp) :
    fsReadText (process_whl_file Scenario.srcPath2 Scenario.repoRoot Scenario.baseUrl rp
        ((process_whl_file Scenario.srcPath Scenario.repoRoot Scenario.baseUrl rp
          (Scenario.fsB b1 b2)).1)).1 Scenario.rootIndexPath =
      fsReadText (process_whl_file Scenario.srcPath Scenario.repoRoot Scenario.baseUrl rp
        (Scenario.fsB b1 b2)).1 Scenario.rootIndexPath ∧
    (splitLinesKeepEnds ((fsReadText (process_whl_file Scenario.srcPath2 Scenario.repoRoot
        Scenario.baseUrl rp ((process_whl_file Scenario.srcPath Scenario.repoRoot
          Scenario.baseUrl rp (Scenario.fsB b1 b2)).1)).1
        Scenario.rootIndexPath).getD [])).countP isLinkEntryLine = 1 ∧
    fsReadText (process_whl_file Scenario.srcPath Scenario.repoRoot Scenario.baseUrl rp
        (Scenario.fsB b1 b2)).1 Scenario.pkgIndexPath =
      some (joinLines (wfIndex [Scenario.entry1 b1 rp])) ∧
    fsReadText (process_whl_file Scenario.srcPath2 Scenario.repoRoot Scenario.baseUrl rp
        ((process_whl_file Scenario.srcPath Scenario.repoRoot Scenario.baseUrl rp
          (Scenario.fsB b1 b2)).1)).1 Scenario.pkgIndexPath =
      some (joinLines (wfIndex [Scenario.entry1 b1 rp, Scenario.entry2 b2 rp])) ∧
    (wfIndex [Scenario.entry1 b1 rp, Scenario.entry2 b2 rp]).countP isLinkEntryLine = 2 := by
  rw [Scenario.firstMergeB b1 b2 rp,
      show ((Scenario.fsB1 b1 b2 rp, Scenario.trace1 b1 rp)).1 = Scenario.fsB1 b1 b2 rp from rfl,
      Scenario.secondMergeB b1 b2 rp hrp]
  refine ⟨rfl, ?_, rfl, rfl, ?_⟩
  · rw [show fsReadText ((Scenario.fsB2 b1 b2 rp, Scenario.traceB2 b1 b2 rp)).1
        Scenario.rootIndexPath = some Scenario.rootContent1 from rfl]
    decide
  · rw [countP_wfIndex]
    have he1 : isLinkEntryLine (Scenario.entry1 b1 rp) = true :=
      isLinkEntryLine_pkgLinkEntry _ _ _
    have he2 : isLinkEntryLine (Scenario.entry2 b2 rp) = true :=
      isLinkEntryLine_pkgLinkEntry _ _ _
    simp [List.countP_cons, he1, he2]

/-- Witness for C8 at concrete wheel bytes and absent metadata. -/
theorem claimC8_witness :
    RpOk (fun _ => none) ∧
    fsReadText (process_whl_file Scenario.srcPath2 Scenario.repoRoot Scenario.baseUrl
        (fun _ => none) ((process_whl_file Scenario.srcPath Scenario.repoRoot
          Scenario.baseUrl (fun _ => none) (Scenario.fsB [] [0])).1)).1
        Scenario.pkgIndexPath =
      some (joinLines (wfIndex [Scenario.entry1 [] (fun _ => none),
        Scenario.entry2 [0] (fun _ => none)])) :=
  ⟨fun _ s h => Option.noConfusion h,
   (claimC8_second_version [] [0] (fun _ => none)
      (fun _ s h => Option.noConfusion h)).2.2.2.1⟩

end PyPi

namespace PyPi

lemma foldl_mergeStep_no_close (e : List Char) (lines : List (List Char))
    (h : ∀ l ∈ lines, pyStrip l ≠ bodyCloseTag) :
    ∀ acc ins, (lines.foldl (mergeStep e) (acc, ins)).1 = acc ++ lines.map pyRstrip := by
  induction lines with
  | nil => intro acc ins; simp
  | cons l ls ih =>
    intro acc ins
    have hstep : mergeStep e (acc, ins) l =
        (acc ++ [pyRstrip l], if pyStrip l = bodyOpenTag then true else ins) := by
      simp [mergeStep, h l (List.mem_cons_self l ls)]
    rw [List.foldl_cons, hstep,
        ih (fun m hm => h m (List.mem_cons_of_mem l hm)) (acc ++ [pyRstrip l]) _]
    simp

/-- C4 amended: when no line of the existing package index strips to
    `</body>`, the merge rewrites the file with its original lines merely
    right-stripped — the unparseable content is preserved and the new
    link entry is NOT inserted (and nothing is logged). -/
theorem claimC4_amended (pkg ver whlf root base : List Char)
    (rp : List Nat → Option (List Char)) (fs : FS) (b : List Nat) (t : List Char)
    (hb : fsReadBin fs whlf = some b)
    (ht : fsReadText fs (pyPathJoin (pyPathJoin root pkg) indexHtml) = some t)
    (h : ∀ l ∈ splitLinesKeepEnds t, pyStrip l ≠ bodyCloseTag) :
    update_package_index pkg ver whlf root base rp fs =
      some (fsWrite fs (pyPathJoin (pyPathJoin root pkg) indexHtml)
              (FileData.text (joinLines ((splitLinesKeepEnds t).map pyRstrip))),
            [Event.writeFile (pyPathJoin (pyPathJoin root pkg) indexHtml)
              (joinLines ((splitLinesKeepEnds t).map pyRstrip))]) := by
  have hex := fsExists_of_readText fs _ _ ht
  have hm : ∀ le : List Char, mergeIndexLines le (splitLinesKeepEnds t) =
      (splitLinesKeepEnds t).map pyRstrip := by
    intro le
    unfold mergeIndexLines
    rw [foldl_mergeStep_no_close le (splitLinesKeepEnds t) h [] false]
    simp
  unfold update_package_index
  simp only [hb, hex, ht, if_true]
  simp only [hm]

set_option maxRecDepth 2000000 in
/-- C4 counterexample: merging into a repository whose package index
    holds unrelated malformed markup keeps that markup verbatim and adds
    no link entry at all — the document is not treated as empty and does
    not end up holding exactly the one new entry. -/
theorem claimC4_counterexample :
    fsReadText (process_whl_file Scenario.srcPath Scenario.repoRoot Scenario.baseUrl
        (fun _ => none)
        (FS.mk [] [(Scenario.srcPath, FileData.bin []),
          (Scenario.pkgIndexPath, FileData.text (("<p>oops</p>").toList))])).1
      Scenario.pkgIndexPath = some (("<p>oops</p>").toList) ∧
    pyContains (("<p>oops</p>").toList) (("<a href=").toList) = false := by decide

/-- Witness for C4 amended on a one-line malformed index. -/
theorem claimC4_witness :
    fsReadBin (FS.mk [] [(("/w-1.whl").toList, FileData.bin []),
        (("/r/p/index.html").toList, FileData.text (("<p>x</p>").toList))])
      (("/w-1.whl").toList) = some [] ∧
    fsReadText (FS.mk [] [(("/w-1.whl").toList, FileData.bin []),
        (("/r/p/index.html").toList, FileData.text (("<p>x</p>").toList))])
      (pyPathJoin (pyPathJoin (("/r").toList) (("p").toList)) indexHtml) =
      some (("<p>x</p>").toList) ∧
    (∀ l ∈ splitLinesKeepEnds (("<p>x</p>").toList), pyStrip l ≠ bodyCloseTag) ∧
    update_package_index (("p").toList) (("v").toList) (("/w-1.whl").toList)
        (("/r").toList) (("b").toList) (fun _ => none)
        (FS.mk [] [(("/w-1.whl").toList, FileData.bin []),
          (("/r/p/index.html").toList, FileData.text (("<p>x</p>").toList))]) =
      some (fsWrite (FS.mk [] [(("/w-1.whl").toList, FileData.bin []),
              (("/r/p/index.html").toList, FileData.text (("<p>x</p>").toList))])
              (pyPathJoin (pyPathJoin (("/r").toList) (("p").toList)) indexHtml)
              (FileData.text (joinLines
                ((splitLinesKeepEnds (("<p>x</p>").toList)).map pyRstrip))),
            [Event.writeFile (pyPathJoin (pyPathJoin (("/r").toList) (("p").toList)) indexHtml)
              (joinLines ((splitLinesKeepEnds (("<p>x</p>").toList)).map pyRstrip))]) :=
  ⟨rfl, rfl, by decide,
   claimC4_amended (("p").toList) (("v").toList) (("/w-1.whl").toList) (("/r").toList)
     (("b").toList) (fun _ => none) _ [] (("<p>x</p>").toList) rfl rfl (by decide)⟩

end PyPi

namespace PyPi

set_option maxRecDepth 2000000 in
/-- C3 counterexample: `My.Pkg-1.0.0-py3-none-any.whl` and
    `my_pkg-1.0.0-py3-none-any.whl` are stored under two different
    directories and produce two distinct root-index entries — the merge
    does not canonicalize case or separators. -/
theorem claimC3_counterexample :
    (("/repo/My.Pkg/1.0.0").toList ∈
      (process_whl_file (("/src/my_pkg-1.0.0-py3-none-any.whl").toList)
        Scenario.repoRoot Scenario.baseUrl (fun _ => none)
        ((process_whl_file (("/src/My.Pkg-1.0.0-py3-none-any.whl").toList)
          Scenario.repoRoot Scenario.baseUrl (fun _ => none)
          (FS.mk [] [((("/src/My.Pkg-1.0.0-py3-none-any.whl").toList), FileData.bin []),
            ((("/src/my_pkg-1.0.0-py3-none-any.whl").toList), FileData.bin [])])).1)).1.dirs ∧
    ("/repo/my_pkg/1.0.0").toList ∈
      (process_whl_file (("/src/my_pkg-1.0.0-py3-none-any.whl").toList)
        Scenario.repoRoot Scenario.baseUrl (fun _ => none)
        ((process_whl_file (("/src/My.Pkg-1.0.0-py3-none-any.whl").toList)
          Scenario.repoRoot Scenario.baseUrl (fun _ => none)
          (FS.mk [] [((("/src/My.Pkg-1.0.0-py3-none-any.whl").toList), FileData.bin []),
            ((("/src/my_pkg-1.0.0-py3-none-any.whl").toList), FileData.bin [])])).1)).1.dirs ∧
    ("/repo/My.Pkg/1.0.0").toList ≠ ("/repo/my_pkg/1.0.0").toList) ∧
    (pyContains ((fsReadText (process_whl_file (("/src/my_pkg-1.0.0-py3-none-any.whl").toList)
        Scenario.repoRoot Scenario.baseUrl (fun _ => none)
        ((process_whl_file (("/src/My.Pkg-1.0.0-py3-none-any.whl").toList)
          Scenario.repoRoot Scenario.baseUrl (fun _ => none)
          (FS.mk [] [((("/src/My.Pkg-1.0.0-py3-none-any.whl").toList), FileData.bin []),
            ((("/src/my_pkg-1.0.0-py3-none-any.whl").toList), FileData.bin [])])).1)).1
        Scenario.rootIndexPath).getD [])
      (rootLinkEntry (("My.Pkg").toList)) = true ∧
    pyContains ((fsReadText (process_whl_file (("/src/my_pkg-1.0.0-py3-none-any.whl").toList)
        Scenario.repoRoot Scenario.baseUrl (fun _ => none)
        ((process_whl_file (("/src/My.Pkg-1.0.0-py3-none-any.whl").toList)
          Scenario.repoRoot Scenario.baseUrl (fun _ => none)
          (FS.mk [] [((("/src/My.Pkg-1.0.0-py3-none-any.whl").toList), FileData.bin []),
            ((("/src/my_pkg-1.0.0-py3-none-any.whl").toList), FileData.bin [])])).1)).1
        Scenario.rootIndexPath).getD [])
      (rootLinkEntry (("my_pkg").toList)) = true ∧
    rootLinkEntry (("My.Pkg").toList) ≠ rootLinkEntry (("my_pkg").toList)) := by decide

/-- C3 amended: the extracted package name is the first `-`-separated
    segment of the file name taken verbatim — no lowercasing and no
    separator collapsing — and the second segment is the version, exactly
    as `process_whl_file` looks them up with `parts[0]` and `parts[1]`. -/
theorem claimC3_amended (name ver rest : List Char)
    (h1 : '-' ∉ name) (h2 : '-' ∉ ver) :
    (pySplitChar '-' (name ++ '-' :: ver ++ '-' :: rest)).getD 0 [] = name ∧
    (pySplitChar '-' (name ++ '-' :: ver ++ '-' :: rest)).getD 1 [] = ver := by
  simp only [List.cons_append, List.append_assoc]
  rw [pySplitChar_append '-' name _ h1, pySplitChar_append '-' ver rest h2]
  exact ⟨rfl, rfl⟩

/-- Witness for C3 amended at the dotted name `My.Pkg`. -/
theorem claimC3_witness :
    '-' ∉ (("My.Pkg").toList) ∧ '-' ∉ (("1.0.0").toList) ∧
    (pySplitChar '-' ((("My.Pkg").toList) ++ '-' :: (("1.0.0").toList) ++ '-' ::
        (("py3-none-any.whl").toList))).getD 0 [] = ("My.Pkg").toList :=
  ⟨by decide, by decide,
   (claimC3_amended (("My.Pkg").toList) (("1.0.0").toList) (("py3-none-any.whl").toList)
      (by decide) (by decide)).1⟩

end PyPi

namespace PyPi

/-! ### C9: the write discipline of the two index updates -/

/-- Modelled from the spec: §5 requires every index-file write to happen
    under an exclusive lock scoped to that path, or as an atomic
    temp-file-plus-rename replace.  A trace satisfies `WriteSafe` when
    every direct `writeFile` event is at least accompanied by a lock
    acquisition for its path (a necessary condition of that discipline;
    atomic replaces would appear as `writeTempRename` events instead). -/
def WriteSafe (tr : List Event) : Prop :=
  ∀ p c, Event.writeFile p c ∈ tr → Event.lockAcquire p ∈ tr

/-- Events that involve no locking and no temp-file renaming. -/
def PlainEvent : Event → Prop
  | Event.lockAcquire _ => False
  | Event.lockRelease _ => False
  | Event.writeTempRename _ _ _ => False
  | _ => True

lemma update_root_index_none_of_text_none (pkg root : List Char) (fs : FS)
    (hex : fsExists fs (pyPathJoin root indexHtml) = true)
    (ht : fsReadText fs (pyPathJoin root indexHtml) = none) :
    update_root_index pkg root fs = none := by
  unfold update_root_index
  simp [hex, ht]

lemma update_root_index_events (pkg root : List Char) (fs fs' : FS) (ev : List Event)
    (h : update_root_index pkg root fs = some (fs', ev)) : ∀ e ∈ ev, PlainEvent e := by
  by_cases hex : fsExists fs (pyPathJoin root indexHtml) = true
  · match hr : fsReadText fs (pyPathJoin root indexHtml) with
    | some content =>
      rw [update_root_index_existing pkg root content fs hr] at h
      cases h
      intro e he
      simp only [List.mem_singleton] at he
      subst he
      trivial
    | none =>
      rw [update_root_index_none_of_text_none pkg root fs hex hr] at h
      cases h
  · rw [update_root_index_fresh pkg root fs (by simpa using hex)] at h
    cases h
    intro e he
    simp only [List.mem_singleton] at he
    subst he
    trivial

lemma update_package_index_none_of_bin_none
    (pkg ver whlf root base : List Char) (rp : List Nat → Option (List Char)) (fs : FS)
    (hb : fsReadBin fs whlf = none) :
    update_package_index pkg ver whlf root base rp fs = none := by
  unfold update_package_index
  simp [hb]

lemma update_package_index_none_of_text_none
    (pkg ver whlf root base : List Char) (rp : List Nat → Option (List Char))
    (fs : FS) (b : List Nat)
    (hb : fsReadBin fs whlf = some b)
    (hex : fsExists fs (pyPathJoin (pyPathJoin root pkg) indexHtml) = true)
    (ht : fsReadText fs (pyPathJoin (pyPathJoin root pkg) indexHtml) = none) :
    update_package_index pkg ver whlf root base rp fs = none := by
  unfold update_package_index
  simp [hb, hex, ht]

/-- `update_package_index` on an existing index with arbitrary text. -/
lemma update_package_index_existing_any
    (pkg ver whlf root base : List Char) (rp : List Nat → Option (List Char))
    (fs : FS) (b : List Nat) (t : List Char)
    (hb : fsReadBin fs whlf = some b)
    (ht : fsReadText fs (pyPathJoin (pyPathJoin root pkg) indexHtml) = some t) :
    update_package_index pkg ver whlf root base rp fs =
      some (fsWrite fs (pyPathJoin (pyPathJoin root pkg) indexHtml)
              (FileData.text (joinLines (mergeIndexLines
                (builtEntry pkg ver whlf base rp b) (splitLinesKeepEnds t)))),
            [Event.writeFile (pyPathJoin (pyPathJoin root pkg) indexHtml)
              (joinLines (mergeIndexLines
                (builtEntry pkg ver whlf base rp b) (splitLinesKeepEnds t)))]) := by
  have hex := fsExists_of_readText fs _ _ ht
  unfold update_package_index
  simp only [hb, hex, ht, if_true]
  rfl

lemma update_package_index_events
    (pkg ver whlf root base : List Char) (rp : List Nat → Option (List Char))
    (fs fs' : FS) (ev : List Event)
    (h : update_package_index pkg ver whlf root base rp fs = some (fs', ev)) :
    ∀ e ∈ ev, PlainEvent e := by
  match hb : fsReadBin fs whlf with
  | none =>
    rw [update_package_index_none_of_bin_none pkg ver whlf root base rp fs hb] at h
    cases h
  | some b =>
    by_cases hex : fsExists fs (pyPathJoin (pyPathJoin root pkg) indexHtml) = true
    · match ht : fsReadText fs (pyPathJoin (pyPathJoin root pkg) indexHtml) with
      | some t =>
        rw [update_package_index_existing_any pkg ver whlf root base rp fs b t hb ht] at h
        cases h
        intro e he
        simp only [List.mem_singleton] at he
        subst he
        trivial
      | none =>
        rw [update_package_index_none_of_text_none pkg ver whlf root base rp fs b hb hex ht] at h
        cases h
    · rw [update_package_index_fresh pkg ver whlf root base rp fs b hb (by simpa using hex)] at h
      cases h
      intro e he
      simp only [List.mem_singleton] at he
      subst he
      trivial

end PyPi

namespace PyPi

/-- C9 amended: every run of the merge performs its index writes as
    direct in-place `writeFile` operations — no run ever acquires a lock,
    releases one, or writes through a temporary file and rename. -/
theorem claimC9_amended (whl root base : List Char)
    (rp : List Nat → Option (List Char)) (fs : FS) :
    ∀ e ∈ (process_whl_file whl root base rp fs).2, PlainEvent e := by
  intro e he
  unfold process_whl_file at he
  simp only [] at he
  split at he
  · split at he
    · simp at he
      subst he
      trivial
    · split at he
      · simp at he
        subst he
        trivial
      · split at he
        · simp at he
          rcases he with rfl | rfl
          · trivial
          · trivial
        · rename_i fs3 ev3 hroot
          split at he
          · simp only [Prod.snd, List.mem_cons] at he
            rcases he with rfl | rfl | he
            · trivial
            · trivial
            · exact update_root_index_events _ _ _ _ _ hroot e he
          · rename_i fs4 ev4 hpkg
            simp only [Prod.snd, List.mem_cons, List.mem_append,
              List.mem_singleton, List.not_mem_nil, or_false] at he
            rcases he with rfl | rfl | (he | he) | rfl
            · trivial
            · trivial
            · exact update_root_index_events _ _ _ _ _ hroot e he
            · exact update_package_index_events _ _ _ _ _ _ _ _ _ hpkg e he
            · trivial
  · simp at he
    subst he
    trivial

end PyPi

namespace PyPi

set_option maxRecDepth 2000000 in
/-- C9 counterexample: a concrete merge writes the root index with a
    direct `writeFile` while its trace contains no lock acquisition for
    that path (nor any temp-rename), so the claimed locked-or-atomic
    write discipline does not hold. -/
theorem claimC9_counterexample :
    ¬ WriteSafe ((process_whl_file Scenario.srcPath Scenario.repoRoot Scenario.baseUrl
      (fun _ => none) (Scenario.fs0 [])).2) := by
  intro h
  exact absurd (h Scenario.rootIndexPath Scenario.rootContent1 (by decide)) (by decide)

set_option maxRecDepth 2000000 in
/-- Witness for C9 amended: the root-index write of a concrete run is a
    plain direct write. -/
theorem claimC9_witness :
    PlainEvent (Event.writeFile Scenario.rootIndexPath Scenario.rootContent1) :=
  claimC9_amended Scenario.srcPath Scenario.repoRoot Scenario.baseUrl (fun _ => none)
    (Scenario.fs0 [])
    (Event.writeFile Scenario.rootIndexPath Scenario.rootContent1) (by decide)

end PyPi

namespace PyPi

/-! ### C1: display-name uniqueness at the document level -/

/-- The display text of a rendered entry line: the run of non-`>`
    characters between the tag close and the final `</a>`. -/
def extractName (e : List Char) : List Char :=
  ((e.reverse.drop 4).takeWhile (fun c => c ≠ '>')).reverse

lemma takeWhile_append_stop (p : Char → Bool) (l₁ : List Char) (y : Char) (l₂ : List Char)
    (h1 : ∀ x ∈ l₁, p x = true) (h2 : p y = false) :
    (l₁ ++ y :: l₂).takeWhile p = l₁ := by
  induction l₁ with
  | nil => simp [List.takeWhile_cons, h2]
  | cons a l ih =>
    have ha := h1 a (List.mem_cons_self a l)
    simp [List.takeWhile_cons, ha,
      ih (fun x hx => h1 x (List.mem_cons_of_mem a hx))]

lemma extractName_pkgLinkEntry (u a n : List Char) (hn : '>' ∉ n) :
    extractName (pkgLinkEntry u a n) = n := by
  have hsplit : pkgLinkEntry u a n =
      ((("        <a href=\"").toList ++ u ++ '\"' :: a ++
          (" rel=\"internal\"").toList) ++ ['>']) ++ (n ++ ['<', '/', 'a', '>']) := by
    unfold pkgLinkEntry
    rw [show (" rel=\"internal\">").toList = (" rel=\"internal\"").toList ++ ['>'] from rfl,
        show ("</a>").toList = ['<', '/', 'a', '>'] from rfl]
    simp [List.append_assoc]
  rw [extractName, hsplit, List.reverse_append, List.reverse_append]
  rw [show (['<', '/', 'a', '>'] : List Char).reverse = ['>', 'a', '/', '<'] from rfl]
  rw [show (((("        <a href=\"").toList ++ u ++ '\"' :: a ++
        (" rel=\"internal\"").toList) ++ ['>'])).reverse =
      '>' :: (("        <a href=\"").toList ++ u ++ '\"' :: a ++
        (" rel=\"internal\"").toList).reverse from by
    rw [List.reverse_append]; rfl]
  rw [List.append_assoc]
  rw [show ((['>', 'a', '/', '<'] ++ (n.reverse ++ '>' ::
      (("        <a href=\"").toList ++ u ++ '\"' :: a ++
        (" rel=\"internal\"").toList).reverse)).drop 4) =
      n.reverse ++ '>' :: (("        <a href=\"").toList ++ u ++ '\"' :: a ++
        (" rel=\"internal\"").toList).reverse from rfl]
  rw [takeWhile_append_stop _ n.reverse '>' _
      (fun x hx => by
        have : x ∈ n := List.mem_reverse.mp hx
        simp only [decide_eq_true_eq]
        exact fun hxgt => hn (hxgt ▸ this))
      (by decide)]
  exact List.reverse_reverse n

/-- Folding merges of rendered entries over a well-formed document
    appends each entry in order, via serialize/reparse round trips. -/
lemma fold_merge_invariant (ts : List (List Char × List Char × List Char))
    (hts : ∀ t ∈ ts, '\n' ∉ t.1 ∧ '\n' ∉ t.2.1 ∧ '\n' ∉ t.2.2) :
    ∀ es : List (List Char), (∀ e ∈ es, e ≠ [] ∧ '\n' ∉ e ∧ EntryOk e) →
      ts.foldl (fun txt t => joinLines (mergeIndexLines (pkgLinkEntry t.1 t.2.1 t.2.2)
          (splitLinesKeepEnds txt))) (joinLines (wfIndex es)) =
        joinLines (wfIndex (es ++ ts.map (fun t => pkgLinkEntry t.1 t.2.1 t.2.2))) := by
  induction ts with
  | nil => intro es _; simp
  | cons t ts ih =>
    intro es hes
    rcases hts t (List.mem_cons_self t ts) with ⟨hu, ha, hn⟩
    have hentry := pkgLinkEntry_lineOk t.1 t.2.1 t.2.2 hu ha hn
    have hstep : joinLines (mergeIndexLines (pkgLinkEntry t.1 t.2.1 t.2.2)
        (splitLinesKeepEnds (joinLines (wfIndex es)))) =
        joinLines (wfIndex (es ++ [pkgLinkEntry t.1 t.2.1 t.2.2])) := by
      rw [mergeIndexLines_roundTrip _ (wfIndex es) (by simp [wfIndex, skelPre])
            (wfIndex_linesOk es (fun e he => ⟨(hes e he).1, (hes e he).2.1⟩)),
          mergeIndexLines_wf _ es (fun e he => (hes e he).2.2)]
    rw [List.foldl_cons, hstep,
        ih (fun x hx => hts x (List.mem_cons_of_mem t hx))
          (es ++ [pkgLinkEntry t.1 t.2.1 t.2.2])
          (fun e he => by
            rcases List.mem_append.mp he with h | h
            · exact hes e h
            · rcases List.mem_singleton.mp h with rfl
              exact hentry)]
    simp

end PyPi

namespace PyPi

lemma countP_render_names (l : List (List Char × List Char × List Char))
    (n0 : List Char) (hl : ∀ t ∈ l, '>' ∉ t.2.2) :
    (l.map (fun t => pkgLinkEntry t.1 t.2.1 t.2.2)).countP
        (fun e => decide (extractName e = n0)) =
      (l.map (fun t => t.2.2)).countP (fun n => decide (n = n0)) := by
  rw [List.countP_map, List.countP_map]
  exact List.countP_congr (fun t ht => by
    simp only [Function.comp_apply, decide_eq_true_eq]
    rw [extractName_pkgLinkEntry t.1 t.2.1 t.2.2 (hl t ht)])

lemma countP_eq_one_of_nodup (names : List (List Char)) (n0 : List Char)
    (hd : names.Nodup) (hm : n0 ∈ names) :
    names.countP (fun n => decide (n = n0)) = 1 := by
  induction names with
  | nil => cases hm
  | cons a l ih =>
    rw [List.countP_cons]
    rcases List.mem_cons.mp hm with rfl | hm'
    · have hnotin : n0 ∉ l := (List.nodup_cons.mp hd).1
      have hz : l.countP (fun n => decide (n = n0)) = 0 := by
        rw [List.countP_eq_zero]
        intro x hx
        simp only [decide_eq_true_eq]
        exact fun h => hnotin (h ▸ hx)
      simp [hz]
    · have h1 := ih (List.nodup_cons.mp hd).2 hm'
      have hne : ¬ (a = n0) := fun h => (List.nodup_cons.mp hd).1 (h ▸ hm')
      simp [h1, hne]

/-- C1 amended: folding merges (each with the full serialize/reparse
    round trip of `update_package_index`) of artifacts with pairwise
    distinct display names yields the skeleton with exactly one link
    entry per distinct display name, in insertion order; but merging a
    further artifact appends its entry unconditionally — even when its
    display text already appears, both entries are retained (no in-place
    replacement). -/
theorem claimC1_amended (t0 textra : List Char × List Char × List Char)
    (ts : List (List Char × List Char × List Char))
    (hchars : ∀ t ∈ t0 :: ts, '\n' ∉ t.1 ∧ '\n' ∉ t.2.1 ∧ '\n' ∉ t.2.2 ∧ '>' ∉ t.2.2)
    (hnodup : ((t0 :: ts).map (fun t => t.2.2)).Nodup) :
    ts.foldl (fun txt t => joinLines (mergeIndexLines (pkgLinkEntry t.1 t.2.1 t.2.2)
        (splitLinesKeepEnds txt)))
      (joinLines (newPackageIndexLines (pkgLinkEntry t0.1 t0.2.1 t0.2.2))) =
      joinLines (wfIndex ((t0 :: ts).map (fun t => pkgLinkEntry t.1 t.2.1 t.2.2))) ∧
    (∀ t ∈ t0 :: ts,
      ((t0 :: ts).map (fun t => pkgLinkEntry t.1 t.2.1 t.2.2)).countP
        (fun e => decide (extractName e = t.2.2)) = 1) ∧
    joinLines (mergeIndexLines (pkgLinkEntry textra.1 textra.2.1 textra.2.2)
        (splitLinesKeepEnds (joinLines (wfIndex
          ((t0 :: ts).map (fun t => pkgLinkEntry t.1 t.2.1 t.2.2)))))) =
      joinLines (wfIndex (((t0 :: ts).map (fun t => pkgLinkEntry t.1 t.2.1 t.2.2)) ++
        [pkgLinkEntry textra.1 textra.2.1 textra.2.2])) := by
  have hlinesOk : ∀ e ∈ (t0 :: ts).map (fun t => pkgLinkEntry t.1 t.2.1 t.2.2),
      e ≠ [] ∧ '\n' ∉ e ∧ EntryOk e := by
    intro e he
    rcases List.mem_map.mp he with ⟨t, ht, rfl⟩
    rcases hchars t ht with ⟨hu, ha, hn, _⟩
    exact pkgLinkEntry_lineOk t.1 t.2.1 t.2.2 hu ha hn
  refine ⟨?_, ?_, ?_⟩
  · rcases hchars t0 (List.mem_cons_self t0 ts) with ⟨hu, ha, hn, _⟩
    have h0 := pkgLinkEntry_lineOk t0.1 t0.2.1 t0.2.2 hu ha hn
    rw [newPackageIndexLines_wf,
        fold_merge_invariant ts (fun t ht => by
          rcases hchars t (List.mem_cons_of_mem t0 ht) with ⟨a, b, c, _⟩
          exact ⟨a, b, c⟩)
          [pkgLinkEntry t0.1 t0.2.1 t0.2.2]
          (fun e he => by
            rcases List.mem_singleton.mp he with rfl
            exact h0)]
    rfl
  · intro t ht
    rw [countP_render_names _ _ (fun x hx => (hchars x hx).2.2.2)]
    exact countP_eq_one_of_nodup _ _ hnodup
      (List.mem_map_of_mem (fun t => t.2.2) ht)
  · rw [mergeIndexLines_roundTrip _ _ (by simp [wfIndex, skelPre])
          (wfIndex_linesOk _ (fun e he => ⟨(hlinesOk e he).1, (hlinesOk e he).2.1⟩)),
        mergeIndexLines_wf _ _ (fun e he => (hlinesOk e he).2.2)]

/-- C1 counterexample: merging an artifact whose rendered entry (same
    display text `f.whl`) already appears leaves the package index with
    TWO entries for that display name — the existing entry is not
    replaced. -/
theorem claimC1_counterexample :
    (mergeIndexLines (pkgLinkEntry (("u").toList) [] (("f.whl").toList))
      (splitLinesKeepEnds (joinLines (newPackageIndexLines
        (pkgLinkEntry (("u").toList) [] (("f.whl").toList)))))).countP
      (fun e => decide (extractName e = ("f.whl").toList)) = 2 := by decide

/-- Witness for C1 amended on two artifacts with distinct display
    names. -/
theorem claimC1_witness :
    (∀ t ∈ [((("u1").toList, ([], ("f1.whl").toList)) :
          List Char × List Char × List Char),
        (("u2").toList, ([], ("f2.whl").toList))],
      '\n' ∉ t.1 ∧ '\n' ∉ t.2.1 ∧ '\n' ∉ t.2.2 ∧ '>' ∉ t.2.2) ∧
    (([((("u1").toList, ([], ("f1.whl").toList)) :
          List Char × List Char × List Char),
        (("u2").toList, ([], ("f2.whl").toList))].map (fun t => t.2.2)).Nodup) ∧
    ([((("u1").toList, ([], ("f1.whl").toList)) :
          List Char × List Char × List Char),
        (("u2").toList, ([], ("f2.whl").toList))].map
        (fun t => pkgLinkEntry t.1 t.2.1 t.2.2)).countP
      (fun e => decide (extractName e = ("f1.whl").toList)) = 1 :=
  ⟨by decide, by decide,
   (claimC1_amended ((("u1").toList, ([], ("f1.whl").toList)))
      ((("u1").toList, ([], ("f1.whl").toList)))
      [(("u2").toList, ([], ("f2.whl").toList))]
      (by decide) (by decide)).2.1
     ((("u1").toList, ([], ("f1.whl").toList)))
     (List.mem_cons_self _ _)⟩

end PyPi
